import Mathlib

/-!
Verification development for the `discord-ext-slash` extension library.

This file embeds (shallowly) the parts of the library's source that the
verified properties are about:

* `option.py` — the `Option`/`Choice` schema model (constructor inference
  of numeric types, serialization, cloning);
* `command.py` — option attachment during `Command.__init__`, the check
  chain (`Command.can_run`) and invocation (`Command.invoke`);
* `bot.py` — the registration synchronizer (`SlashBot.sync_cmds`) and the
  interaction dispatch path (`SlashBot.handle_slash_command` /
  `SlashBot.do_invoke`);
* `context.py` — entity resolution (`BaseContext._try_get` and the
  MENTIONABLE option path) and the response state machine
  (`BaseContext._message_data` / `BaseContext.respond`);
* `components.py` — `ActionRow` construction and serialization.

Python machine-level details that no property depends on are represented
abstractly: Python numbers appear as an int/float sum type (floats carried
as rationals, which is exact for every literal used here), `discord.Embed`
and `discord.File` objects are opaque payloads, and out-of-scope
collaborator types (`allowed_mentions` rendering, HTTP transport) are
elided per the system boundary.
-/

namespace ExtSlash

/-! ### Python numbers

`Option.__init__` branches on `isinstance(x, int)` / `isinstance(x, float)`
and coerces with `int(x)` (truncation toward zero) and `float(x)`.
-/

/-- A Python number: either an `int` or a `float` (carried exactly). -/
inductive PyNum where
  | pint (n : Int)
  | pfloat (q : Rat)
deriving DecidableEq, Repr

/-- `isinstance(x, int)` for a `PyNum`. -/
def PyNum.isInstInt : PyNum → Bool
  | .pint _ => true
  | .pfloat _ => false

/-- `isinstance(x, float)` for a `PyNum`. -/
def PyNum.isInstFloat : PyNum → Bool
  | .pint _ => false
  | .pfloat _ => true

/-- The numeric value, for Python `==` comparison (`1 == 1.0` is true). -/
def PyNum.toRat : PyNum → Rat
  | .pint n => (n : Rat)
  | .pfloat q => q

/-- Python `int(x)`: identity on ints, truncation toward zero on floats. -/
def PyNum.pyInt : PyNum → PyNum
  | .pint n => .pint n
  | .pfloat q => .pint (if 0 ≤ q then q.floor else q.ceil)

/-- Python `float(x)`. -/
def PyNum.pyFloat : PyNum → PyNum
  | .pint n => .pfloat (n : Rat)
  | .pfloat q => .pfloat q

/-- Python `==` on numbers: compares by value across int/float. -/
def PyNum.pyEq (a b : PyNum) : Bool := a.toRat == b.toRat

/-- Python `==` on optional dict entries: a missing entry (the `...`
sentinel in `dict.get(k, ...)`) equals only another missing entry. -/
def optPyEq (eq : α → α → Bool) : Option α → Option α → Bool
  | none, none => true
  | some a, some b => eq a b
  | _, _ => false

/-! ### `simples.py`: enums -/

/-- `ApplicationCommandOptionType` from `simples.py`. -/
inductive ApplicationCommandOptionType where
  | SUB_COMMAND
  | SUB_COMMAND_GROUP
  | STRING
  | INTEGER
  | BOOLEAN
  | USER
  | CHANNEL
  | ROLE
  | MENTIONABLE
  | NUMBER
deriving DecidableEq, Repr

/-- The wire integer of each `ApplicationCommandOptionType` member. -/
def ApplicationCommandOptionType.toInt : ApplicationCommandOptionType → Int
  | .SUB_COMMAND => 1
  | .SUB_COMMAND_GROUP => 2
  | .STRING => 3
  | .INTEGER => 4
  | .BOOLEAN => 5
  | .USER => 6
  | .CHANNEL => 7
  | .ROLE => 8
  | .MENTIONABLE => 9
  | .NUMBER => 10

/-- `InteractionCallbackType` from `simples.py`. -/
inductive InteractionCallbackType where
  | PONG
  | CHANNEL_MESSAGE_WITH_SOURCE
  | DEFERRED_CHANNEL_MESSAGE_WITH_SOURCE
  | DEFERRED_UPDATE_MESSAGE
  | UPDATE_MESSAGE
  | APPLICATION_COMMAND_AUTOCOMPLETE_RESULT
deriving DecidableEq, Repr

/-- The wire integer of each `InteractionCallbackType` member. -/
def InteractionCallbackType.toInt : InteractionCallbackType → Int
  | .PONG => 1
  | .CHANNEL_MESSAGE_WITH_SOURCE => 4
  | .DEFERRED_CHANNEL_MESSAGE_WITH_SOURCE => 5
  | .DEFERRED_UPDATE_MESSAGE => 6
  | .UPDATE_MESSAGE => 7
  | .APPLICATION_COMMAND_AUTOCOMPLETE_RESULT => 8

/-! ### `option.py`: `Choice` and `Option`

The source class is called `Option`; it is named `Opt` here only because
`Option` is Lean's built-in optional type. Field and method names follow
the source.
-/

/-- `Choice` from `option.py`. -/
structure Choice where
  name : String
  value : String
deriving DecidableEq, Repr

/-- Serialized form of a `Choice` (`Choice.to_dict`). -/
def Choice.to_dict (c : Choice) : Choice := c

/-- The argument forms accepted by `Choice.from_data`:
an existing `Choice`, a bare string, or a `{'name':…, 'value':…}` mapping. -/
inductive ChoiceData where
  | ch (c : Choice)
  | str (s : String)
  | dict (name value : String)
deriving DecidableEq, Repr

/-- `Choice.from_data` from `option.py`. -/
def Choice.from_data : ChoiceData → Choice
  | .ch c => c
  | .str s => ⟨s, s⟩
  | .dict n v => ⟨n, v⟩

/-- The `Option` class from `option.py` (named `Opt` to avoid clashing with
Lean's `Option`). `channel_types` is a set of raw channel-type integers,
carried as a list; `_enum` is an opaque tag for the attached `ChoiceEnum`
class, if any. -/
structure Opt where
  name : Option String
  description : String
  type : ApplicationCommandOptionType
  required : Bool
  choices : Option (List Choice)
  channel_types : Option (List Int)
  min_value : Option PyNum
  max_value : Option PyNum
  enumTag : Option Nat
deriving DecidableEq, Repr

/-- `Option.__init__` from `option.py`, for the string-description mode
(the `ChoiceEnum` sugar mode is not needed by any verified property).
Arguments mirror the constructor's parameters and recognized kwargs, in
source order of processing: `channel_types`/`channel_type` force CHANNEL;
`max_value` is processed before `min_value`, each either coerced to an
already-numeric `type` or used to infer `type` from its Python class. -/
def optionInit (description : String) (type : ApplicationCommandOptionType)
    (name : Option String) (channel_types : Option (List Int))
    (channel_type : Option Int) (max_value min_value : Option PyNum)
    (required : Bool) (choices : Option (List ChoiceData)) : Opt :=
  -- self.name = kwargs.pop('name', None)
  -- channel_types / channel_type handling
  let (ctypes, ty) :=
    match channel_types, channel_type with
    | some cts, _ => (some cts, ApplicationCommandOptionType.CHANNEL)
    | none, some ct => (some [ct], ApplicationCommandOptionType.CHANNEL)
    | none, none => (none, type)
  -- if 'max_value' in kwargs: ...
  let (maxv, ty) :=
    match max_value with
    | none => (none, ty)
    | some m =>
      if ty = ApplicationCommandOptionType.INTEGER then (some m.pyInt, ty)
      else if ty = ApplicationCommandOptionType.NUMBER then (some m.pyFloat, ty)
      else if m.isInstInt then (some m, ApplicationCommandOptionType.INTEGER)
      else if m.isInstFloat then (some m, ApplicationCommandOptionType.NUMBER)
      else (some m, ty)
  -- if 'min_value' in kwargs: ...
  let (minv, ty) :=
    match min_value with
    | none => (none, ty)
    | some m =>
      if ty = ApplicationCommandOptionType.INTEGER then (some m.pyInt, ty)
      else if ty = ApplicationCommandOptionType.NUMBER then (some m.pyFloat, ty)
      else if m.isInstInt then (some m, ApplicationCommandOptionType.INTEGER)
      else if m.isInstFloat then (some m, ApplicationCommandOptionType.NUMBER)
      else (some m, ty)
  { name := name
    description := description
    type := ty
    required := required
    choices := choices.map (fun cs => cs.map Choice.from_data)
    channel_types := ctypes
    min_value := minv
    max_value := maxv
    enumTag := none }

/-- Serialized form of an `Option` (`Option.to_dict`). Optional entries are
present according to the source's truthiness tests: `required` only when
true, `choices` when not `None`, `channel_types` when non-empty,
`min_value`/`max_value` when not `None`. The wire `type` entry is
`int(self.type)`; it is carried here as the enum member itself (the map to
integers is injective, so dict equality is unchanged). -/
structure OptDict where
  type : ApplicationCommandOptionType
  name : Option String
  description : String
  required : Option Bool
  choices : Option (List Choice)
  channel_types : Option (List Int)
  min_value : Option PyNum
  max_value : Option PyNum
deriving DecidableEq, Repr

/-- `Option.to_dict` from `option.py`. -/
def Opt.to_dict (o : Opt) : OptDict :=
  { type := o.type
    name := o.name
    description := o.description
    required := if o.required then some o.required else none
    choices := o.choices.map (fun cs => cs.map Choice.to_dict)
    channel_types :=
      match o.channel_types with
      | none => none
      | some cts => if cts.isEmpty then none else some cts
    min_value := o.min_value
    max_value := o.max_value }

/-- Python `==` on serialized option dicts: structural except on the
numeric bounds, which compare by value (`1 == 1.0`). Key presence must
match exactly, as for Python dicts. -/
def OptDict.pyEq (a b : OptDict) : Bool :=
  a.type == b.type && a.name == b.name && a.description == b.description &&
  a.required == b.required && a.choices == b.choices &&
  a.channel_types == b.channel_types &&
  optPyEq PyNum.pyEq a.min_value b.min_value &&
  optPyEq PyNum.pyEq a.max_value b.max_value

/-- Reconstruction of an `Option` from its serialized dict, as performed by
`Option.clone`: `type(self)(**self.to_dict())`. -/
def optionFromDict (d : OptDict) : Opt :=
  optionInit d.description d.type d.name d.channel_types none
    d.max_value d.min_value (d.required.getD false)
    (d.choices.map (fun cs => cs.map ChoiceData.ch))

/-- `Option.clone` from `option.py`: rebuild from `to_dict()`, then copy
the `_enum` tag. -/
def Opt.clone (o : Opt) : Opt :=
  let value := optionFromDict o.to_dict
  { value with enumTag := o.enumTag }

theorem clone_name (o : Opt) : o.clone.name = o.name := by
  simp [Opt.clone, optionFromDict, Opt.to_dict, optionInit]

theorem clone_required (o : Opt) : o.clone.required = o.required := by
  cases o with
  | mk n d t r ch cts minv maxv e =>
    cases r <;> simp [Opt.clone, optionFromDict, Opt.to_dict, optionInit]

theorem clone_description (o : Opt) : o.clone.description = o.description := by
  simp [Opt.clone, optionFromDict, Opt.to_dict, optionInit]


/-! ### Claim C3: numeric type inference from `min_value` / `max_value` -/

/-- C3 (counterexample): constructing an `Option` with `max_value=5`
(an int) and `min_value=1.5` (a float) and no explicit numeric type infers
INTEGER, although not every provided bound is an integer — the claim
"INTEGER iff every provided bound is an integer, NUMBER otherwise" fails
here. (The float lower bound is silently coerced to the int `1`.) -/
theorem C3_counterexample :
    (optionInit "d" .STRING none none none
        (some (.pint 5)) (some (.pfloat (3/2))) false none).type
      = ApplicationCommandOptionType.INTEGER
    ∧ PyNum.isInstInt (.pfloat (3/2)) = false
    ∧ (optionInit "d" .STRING none none none
        (some (.pint 5)) (some (.pfloat (3/2))) false none).min_value
      = some (.pint 1) := by
  refine ⟨rfl, rfl, ?_⟩
  show some (PyNum.pyInt (.pfloat (3/2))) = some (.pint 1)
  have h0 : (0:Rat) ≤ 3/2 := by norm_num
  have key : Rat.floor (3/2 : Rat) = ((3:Rat)/2).floor := rfl
  have hf : Rat.floor (3/2 : Rat) = 1 := by
    rw [Rat.floor_def', ← Rat.floor_def, Int.floor_eq_iff] <;> norm_num
  simp [PyNum.pyInt, h0, hf]

/-- C3 (amended): for an `Option` constructed with `min_value` and/or
`max_value` but no explicit numeric type (and no channel-type kwargs), the
inferred type is taken from the Python class of `max_value` when that bound
is provided — INTEGER iff it is an int, NUMBER iff it is a float — and only
otherwise from `min_value`; the bound not used for inference is coerced to
the inferred type (`int()` truncation or `float()`). -/
theorem C3_option_numeric_inference (d : String) (nm : Option String)
    (t : ApplicationCommandOptionType) (req : Bool)
    (cho : Option (List ChoiceData))
    (ht1 : t ≠ .INTEGER) (ht2 : t ≠ .NUMBER) :
    (∀ mx mn : PyNum,
      (optionInit d t nm none none (some mx) (some mn) req cho).type
        = (if mx.isInstInt then .INTEGER else .NUMBER)) ∧
    (∀ mx : PyNum,
      (optionInit d t nm none none (some mx) none req cho).type
        = (if mx.isInstInt then .INTEGER else .NUMBER)) ∧
    (∀ mn : PyNum,
      (optionInit d t nm none none none (some mn) req cho).type
        = (if mn.isInstInt then .INTEGER else .NUMBER)) ∧
    (∀ mx mn : PyNum, mx.isInstInt →
      (optionInit d t nm none none (some mx) (some mn) req cho).min_value
        = some mn.pyInt) ∧
    (∀ mx mn : PyNum, mx.isInstFloat →
      (optionInit d t nm none none (some mx) (some mn) req cho).min_value
        = some mn.pyFloat) ∧
    (∀ mx mn : PyNum,
      (optionInit d t nm none none (some mx) (some mn) req cho).max_value
        = some mx) := by
  refine ⟨?_, ?_, ?_, ?_, ?_, ?_⟩
  · intro mx mn
    cases mx <;> simp [optionInit, PyNum.isInstInt, PyNum.isInstFloat, ht1, ht2]
  · intro mx
    cases mx <;> simp [optionInit, PyNum.isInstInt, PyNum.isInstFloat, ht1, ht2]
  · intro mn
    cases mn <;> simp [optionInit, PyNum.isInstInt, PyNum.isInstFloat, ht1, ht2]
  · intro mx mn h
    cases mx <;> simp_all [optionInit, PyNum.isInstInt, PyNum.isInstFloat, ht1, ht2]
  · intro mx mn h
    cases mx <;> simp_all [optionInit, PyNum.isInstInt, PyNum.isInstFloat, ht1, ht2]
  · intro mx mn
    cases mx <;> simp [optionInit, PyNum.isInstInt, PyNum.isInstFloat, ht1, ht2]

/-- C3 witness: the amended theorem applied at the default STRING type,
checking a concrete mixed-bound construction (float max, int min → NUMBER
with the int bound coerced to a float). -/
theorem C3_witness :
    ((ApplicationCommandOptionType.STRING ≠ .INTEGER)
      ∧ (ApplicationCommandOptionType.STRING ≠ .NUMBER))
    ∧ (optionInit "d" .STRING none none none
        (some (.pfloat (3/2))) (some (.pint 1)) false none).type
      = (if PyNum.isInstInt (.pfloat (3/2)) then .INTEGER else .NUMBER) := by
  refine ⟨⟨by decide, by decide⟩, ?_⟩
  exact (C3_option_numeric_inference "d" none .STRING false none
    (by decide) (by decide)).1 (.pfloat (3/2)) (.pint 1)

/-! ### Claim C10: options are cloned before attachment (`Command.__init__`)

`Command.__init__` walks the callback's parameters; a parameter annotated
with an `Option` has the annotation cloned, the clone's `required` forced
to `True` when the parameter has no default, the clone stored in
`self.options`, and the clone's `name` defaulted to the parameter name when
unset. Python objects live on a heap and annotations are references, so
the attachment step is modelled against an explicit store of `Opt` cells:
cloning allocates a fresh cell and the two mutations hit only that cell.
-/

/-- The heap of `Option` objects; references are list indices. -/
abbrev OptStore := List Opt

/-- The clone stored by the attachment step: `required` forced when the
parameter has no default, `name` defaulted to the parameter name. -/
def attachedOpt (o : Opt) (paramName : String) (hasDefault : Bool) : Opt :=
  -- typ = typ.clone()
  let typ := o.clone
  -- if param.default is param.empty: typ.required = True
  let typ := if !hasDefault then { typ with required := true } else typ
  -- if typ.name is None: typ.name = param.name
  if typ.name.isNone then { typ with name := some paramName } else typ

theorem attachedOpt_required (o : Opt) (p : String) (hd : Bool) :
    (attachedOpt o p hd).required = (if hd then o.required else true) := by
  cases hd <;> cases hn : o.clone.name <;>
    simp_all [attachedOpt, clone_required, clone_name]

theorem attachedOpt_name (o : Opt) (p : String) (hd : Bool) :
    (attachedOpt o p hd).name
      = (match o.name with | some n => some n | none => some p) := by
  cases hd <;> cases hn : o.name <;>
    simp_all [attachedOpt, clone_name]

theorem attachedOpt_description (o : Opt) (p : String) (hd : Bool) :
    (attachedOpt o p hd).description = o.description := by
  cases hd <;> cases hn : o.clone.name <;>
    simp_all [attachedOpt, clone_description]

/-- Per-parameter attachment step from `Command.__init__` for a parameter
annotated with the `Option` at reference `r`: clone, force `required` when
the parameter lacks a default, store, and default the clone's `name` to the
parameter name. Returns the new store and the reference recorded in
`self.options[param.name]`. (An invalid reference returns the store
unchanged; Python cannot produce one.) -/
def attachOptionParam (st : OptStore) (r : Nat) (paramName : String)
    (hasDefault : Bool) : OptStore × Nat :=
  match st.get? r with
  | none => (st, r)
  | some o => (st ++ [attachedOpt o paramName hasDefault], st.length)

/-- C10: attaching an `Option`-annotated parameter never mutates the
annotation object itself. The stored option is a fresh cell (a clone) whose
`required` is forced to true exactly when the parameter has no default and
whose `name` is the original's, defaulted to the parameter name when unset;
the original cell is bit-for-bit unchanged, so one `Option` instance can be
shared by several `Command` declarations without cross-command aliasing. -/
theorem C10_option_clone_on_attach (st : OptStore) (r : Nat) (o : Opt)
    (paramName : String) (hasDefault : Bool) (h : st.get? r = some o) :
    (attachOptionParam st r paramName hasDefault).1.get? r = some o
    ∧ (attachOptionParam st r paramName hasDefault).2 ≠ r
    ∧ ∃ stored : Opt,
        (attachOptionParam st r paramName hasDefault).1.get?
            (attachOptionParam st r paramName hasDefault).2 = some stored
        ∧ stored.required = (if hasDefault then o.required else true)
        ∧ stored.name = (match o.name with
            | some n => some n
            | none => some paramName)
        ∧ stored.description = o.description := by
  have hr : r < st.length := by
    by_contra hc
    push_neg at hc
    rw [List.get?_eq_none.mpr hc] at h
    cases h
  have hEq : attachOptionParam st r paramName hasDefault
      = (st ++ [attachedOpt o paramName hasDefault], st.length) := by
    unfold attachOptionParam
    rw [h]
  rw [hEq]
  refine ⟨?_, Nat.ne_of_gt hr, attachedOpt o paramName hasDefault, ?_,
    attachedOpt_required o paramName hasDefault,
    attachedOpt_name o paramName hasDefault,
    attachedOpt_description o paramName hasDefault⟩
  · rw [List.get?_append hr]
    exact h
  · exact List.get?_concat_length _ _

/-- C10 witness: a concrete shared option (`required = False`, unset name)
attached to a defaultless parameter `"x"`: the original cell is untouched
and the stored clone has `required = True` and `name = "x"`. -/
theorem C10_witness :
    (([⟨none, "desc", .STRING, false, none, none, none, none, none⟩] :
        OptStore).get? 0
      = some ⟨none, "desc", .STRING, false, none, none, none, none, none⟩)
    ∧ (attachOptionParam
        [⟨none, "desc", .STRING, false, none, none, none, none, none⟩]
        0 "x" false).1.get? 0
      = some ⟨none, "desc", .STRING, false, none, none, none, none, none⟩ :=
  ⟨rfl, (C10_option_clone_on_attach
    [⟨none, "desc", .STRING, false, none, none, none, none, none⟩] 0
    ⟨none, "desc", .STRING, false, none, none, none, none, none⟩
    "x" false rfl).1⟩


/-! ### `bot.py`: the registration synchronizer (`SlashBot.sync_cmds`)

`sync_cmds` receives `todo` (commands registered in code, a dict keyed by
name for one scope) and `done` (the scope's remote command list from the
API), partitions names into create/update/delete sets, and for names in
both compares `todo[name].to_dict()` against the remote record on the keys
`{name, description, options, default_permission}` using
`dict.get(k, ...)` on each side; agreement adopts the remote ID onto the
in-memory command, disagreement queues a PATCH whose payload is the
serialized dict with `name` popped.
-/

/-- A top-level command as the synchronizer sees it: the fields feeding
`Command.to_dict` plus the mutable remote `id`. `options` is the
insertion-ordered list of attached option values. -/
structure Cmd where
  name : String
  description : String
  options : List Opt
  parent_is_none : Bool
  default_permission : Bool
  id : Option Nat
deriving DecidableEq, Repr

/-- Serialized command (`Command.to_dict`): `options` present iff
non-empty, `default_permission` present iff the command is top-level. -/
structure CmdDict where
  name : String
  description : String
  options : Option (List OptDict)
  default_permission : Option Bool
deriving DecidableEq, Repr

/-- `Command.to_dict` from `command.py` (leaf commands; the claims about
the synchronizer are uniform in the serialized dict). -/
def Cmd.to_dict (c : Cmd) : CmdDict :=
  { name := c.name
    description := c.description
    options := if c.options.isEmpty then none
      else some (c.options.map Opt.to_dict)
    default_permission := if c.parent_is_none then some c.default_permission
      else none }

/-- A remote command record as returned by the registration API: it always
carries `id` and `name`; the compared fields may be present or absent. -/
structure RemoteCmd where
  id : Nat
  name : String
  description : Option String
  options : Option (List OptDict)
  default_permission : Option Bool
deriving DecidableEq, Repr

/-- The PATCH payload: the serialized dict with the immutable `name` key
popped (`cmd_dict.pop('name')`). -/
structure PatchDict where
  description : String
  options : Option (List OptDict)
  default_permission : Option Bool
deriving DecidableEq, Repr

/-- `cmd_dict.pop('name')`: the serialized dict without its `name` key. -/
def CmdDict.dropName (c : CmdDict) : PatchDict :=
  { description := c.description
    options := c.options
    default_permission := c.default_permission }

/-- Python `==` on two lists, element-wise with a custom element test. -/
def listPyEq (eq : α → α → Bool) : List α → List α → Bool
  | [], [] => true
  | a :: as, b :: bs => eq a b && listPyEq eq as bs
  | _, _ => false

/-- The `up_to_date` test of `sync_cmds`:
`all(done[name].get(k, ...) == cmd_dict.get(k, ...) for k in
{'name', 'description', 'options', 'default_permission'})`. A key missing
on both sides compares equal (both `.get` return the `...` sentinel). -/
def fieldsEq (c : CmdDict) (r : RemoteCmd) : Bool :=
  (r.name == c.name)
  && optPyEq (fun a b => a == b) r.description (some c.description)
  && optPyEq (listPyEq OptDict.pyEq) r.options c.options
  && optPyEq (fun a b => a == b) r.default_permission c.default_permission

/-- Association-list lookup (Python `dict[k]` / `dict.get(k)`). -/
def alookup (m : List (String × α)) (k : String) : Option α :=
  match m with
  | [] => none
  | (k2, v) :: rest => if k2 == k then some v else alookup rest k

/-- Association-list insertion with overwrite (Python `dict[k] = v`). -/
def upsert (m : List (String × α)) (k : String) (v : α) : List (String × α) :=
  if (m.map Prod.fst).contains k then
    m.map (fun p => if p.1 == k then (k, v) else p)
  else m ++ [(k, v)]

/-- `done = {data['name']: data for data in done}` from `sync_cmds`. -/
def doneMap (done : List RemoteCmd) : List (String × RemoteCmd) :=
  done.foldl (fun m d => upsert m d.name d) []

/-- One queued PATCH: the name-less payload and the remote command ID the
route is built from. -/
structure PatchEntry where
  json : PatchDict
  id : Nat
deriving DecidableEq, Repr

/-- The per-scope outcome of `sync_cmds`: the POST/PATCH/DELETE partitions
recorded into `state` and the in-code command dict after ID adoption. -/
structure SyncResult where
  post : List (String × CmdDict)
  patch : List (String × PatchEntry)
  delete : List (String × Nat)
  todo : List (String × Cmd)
deriving DecidableEq, Repr

/-- `SlashBot.sync_cmds` from `bot.py`, for one scope. `todo` is the
in-code command dict, `done` the remote list. -/
def sync_cmds (todo : List (String × Cmd)) (done : List RemoteCmd) :
    SyncResult :=
  let doneM := doneMap done
  let todoNames := todo.map Prod.fst
  let doneNames := doneM.map Prod.fst
  -- to_delete = set(done.keys()) - set(todo.keys())
  let to_delete := doneNames.filter (fun n => !todoNames.contains n)
  -- to_update = set(done.keys()) & set(todo.keys())
  let to_update := doneNames.filter (fun n => todoNames.contains n)
  -- to_create = set(todo.keys()) - set(done.keys())
  let to_create := todoNames.filter (fun n => !doneNames.contains n)
  -- for name in to_create: state['POST'][name] = {'json': ..., 'cmd': ...}
  let post := to_create.filterMap (fun n =>
    (alookup todo n).map (fun c => (n, c.to_dict)))
  -- for name in to_update: compare and queue PATCH when not up to date
  let patch := to_update.filterMap (fun n =>
    match alookup todo n, alookup doneM n with
    | some c, some r =>
      if fieldsEq c.to_dict r then none
      else some (n, { json := c.to_dict.dropName, id := r.id })
    | _, _ => none)
  -- ... adopting the remote ID when up to date
  let todo2 := todo.map (fun p =>
    match alookup doneM p.1 with
    | some r => if fieldsEq p.2.to_dict r then
        (p.1, { p.2 with id := some r.id }) else p
    | none => p)
  -- for name in to_delete: state['DELETE'][name] = {'id': ...}
  let del := to_delete.filterMap (fun n =>
    (alookup doneM n).map (fun r => (n, r.id)))
  { post := post, patch := patch, delete := del, todo := todo2 }

theorem alookup_isSome (m : List (String × α)) (k : String) :
    (alookup m k).isSome = (m.map Prod.fst).contains k := by
  induction m with
  | nil => rfl
  | cons p rest ih =>
    obtain ⟨k2, v⟩ := p
    by_cases h : k2 = k
    · subst h
      simp [alookup, List.contains_cons]
    · have h2 : (k2 == k) = false := by simpa using h
      have h3 : (k == k2) = false := by simpa using Ne.symm h
      simp [alookup, List.contains_cons, h2, h3, ih]

theorem alookup_eq_none (m : List (String × α)) (k : String) :
    alookup m k = none ↔ (m.map Prod.fst).contains k = false := by
  rw [← alookup_isSome]
  cases alookup m k <;> simp

theorem alookup_mem {m : List (String × α)} {k : String} {v : α}
    (h : alookup m k = some v) : (k, v) ∈ m := by
  induction m with
  | nil => cases h
  | cons p rest ih =>
    obtain ⟨k2, v2⟩ := p
    by_cases h2 : k2 = k
    · subst h2
      simp [alookup] at h
      simp [h]
    · have h3 : (k2 == k) = false := by simpa using h2
      simp [alookup, h3] at h
      exact List.mem_cons_of_mem _ (ih h)

theorem mem_alookup {m : List (String × α)} {k : String} {v : α}
    (hnodup : (m.map Prod.fst).Nodup) (h : (k, v) ∈ m) :
    alookup m k = some v := by
  induction m with
  | nil => cases h
  | cons p rest ih =>
    obtain ⟨k2, v2⟩ := p
    simp only [List.map_cons, List.nodup_cons] at hnodup
    rcases List.mem_cons.mp h with h1 | h1
    · cases h1
      simp [alookup]
    · have hk : k2 ≠ k := by
        rintro rfl
        exact hnodup.1 (List.mem_map.mpr ⟨(k2, v), h1, rfl⟩)
      have h3 : (k2 == k) = false := by simpa using hk
      simp [alookup, h3]
      exact ih hnodup.2 h1


theorem mem_post_iff (todo : List (String × Cmd)) (done : List RemoteCmd)
    (n : String) (d : CmdDict) :
    (n, d) ∈ (sync_cmds todo done).post ↔
      ((∃ c, alookup todo n = some c ∧ d = c.to_dict)
        ∧ alookup (doneMap done) n = none) := by
  simp only [sync_cmds, List.mem_filterMap, List.mem_filter,
    Option.map_eq_some']
  constructor
  · rintro ⟨m, ⟨hmem, hnotdone⟩, c, hlk, heq⟩
    injection heq with h1 h2
    subst h1
    subst h2
    refine ⟨⟨c, hlk, rfl⟩, (alookup_eq_none _ _).mpr ?_⟩
    simpa using hnotdone
  · rintro ⟨⟨c, hlk, rfl⟩, hnone⟩
    refine ⟨n, ⟨List.mem_map.mpr ⟨(n, c), alookup_mem hlk, rfl⟩, ?_⟩,
      c, hlk, rfl⟩
    simpa using (alookup_eq_none _ _).mp hnone

theorem mem_patch_iff (todo : List (String × Cmd)) (done : List RemoteCmd)
    (n : String) (e : PatchEntry) :
    (n, e) ∈ (sync_cmds todo done).patch ↔
      (∃ c r, alookup todo n = some c ∧ alookup (doneMap done) n = some r
        ∧ fieldsEq c.to_dict r = false
        ∧ e = { json := c.to_dict.dropName, id := r.id }) := by
  simp only [sync_cmds, List.mem_filterMap, List.mem_filter]
  constructor
  · rintro ⟨m, ⟨hmem, hcont⟩, hf⟩
    rcases h1 : alookup todo m with _ | c
    · rw [h1] at hf
      cases hf
    rcases h2 : alookup (doneMap done) m with _ | r
    · rw [h1, h2] at hf
      cases hf
    rw [h1, h2] at hf
    have hf2 : (if fieldsEq c.to_dict r = true then
        (none : Option (String × PatchEntry))
        else some (m, { json := c.to_dict.dropName, id := r.id }))
        = some (n, e) := hf
    by_cases hfe : fieldsEq c.to_dict r = true
    · rw [if_pos hfe] at hf2
      cases hf2
    · rw [if_neg hfe] at hf2
      injection hf2 with hp
      injection hp with hm he
      subst hm
      exact ⟨c, r, h1, h2, Bool.eq_false_iff.mpr hfe, he.symm⟩
  · rintro ⟨c, r, h1, h2, hfe, rfl⟩
    refine ⟨n, ⟨List.mem_map.mpr ⟨(n, r), alookup_mem h2, rfl⟩, ?_⟩, ?_⟩
    · have : (alookup todo n).isSome = true := by
        rw [h1]
        rfl
      rw [alookup_isSome] at this
      simpa using this
    · rw [h1, h2]
      show (if fieldsEq c.to_dict r = true then
          (none : Option (String × PatchEntry))
          else some (n, { json := c.to_dict.dropName, id := r.id }))
        = some (n, { json := c.to_dict.dropName, id := r.id })
      rw [hfe]
      simp

theorem mem_delete_iff (todo : List (String × Cmd)) (done : List RemoteCmd)
    (n : String) (i : Nat) :
    (n, i) ∈ (sync_cmds todo done).delete ↔
      (∃ r, alookup (doneMap done) n = some r ∧ i = r.id
        ∧ alookup todo n = none) := by
  simp only [sync_cmds, List.mem_filterMap, List.mem_filter,
    Option.map_eq_some']
  constructor
  · rintro ⟨m, ⟨hmem, hnottodo⟩, r, hlk, heq⟩
    injection heq with h1 h2
    subst h1
    subst h2
    refine ⟨r, hlk, rfl, (alookup_eq_none _ _).mpr ?_⟩
    simpa using hnottodo
  · rintro ⟨r, hlk, rfl, hnone⟩
    refine ⟨n, ⟨List.mem_map.mpr ⟨(n, r), alookup_mem hlk, rfl⟩, ?_⟩,
      r, hlk, rfl⟩
    simpa using (alookup_eq_none _ _).mp hnone

theorem mem_todo_adopt {todo : List (String × Cmd)} {done : List RemoteCmd}
    {n : String} {c : Cmd} {r : RemoteCmd} (h : (n, c) ∈ todo)
    (hr : alookup (doneMap done) n = some r)
    (hf : fieldsEq c.to_dict r = true) :
    (n, { c with id := some r.id }) ∈ (sync_cmds todo done).todo := by
  simp only [sync_cmds]
  refine List.mem_map.mpr ⟨(n, c), h, ?_⟩
  simp [hr, hf]

theorem mem_todo_keep {todo : List (String × Cmd)} {done : List RemoteCmd}
    {n : String} {c : Cmd} (h : (n, c) ∈ todo)
    (hk : ∀ r, alookup (doneMap done) n = some r →
      fieldsEq c.to_dict r = false) :
    (n, c) ∈ (sync_cmds todo done).todo := by
  simp only [sync_cmds]
  refine List.mem_map.mpr ⟨(n, c), h, ?_⟩
  rcases hr : alookup (doneMap done) n with _ | r
  · rfl
  · simp [hk r hr]

/-! ### Claim C1: the three-way diff of `sync_cmds` -/

/-- C1: per scope, `sync_cmds` partitions by name — a declared command
absent remotely is queued as a POST of its serialized form; a remote
command not declared is queued as a DELETE by its remote ID; a name in
both with the serialized declared form agreeing with the remote record on
`name`, `description`, `options` and `default_permission` has the remote
ID adopted onto the in-memory command and appears in no write queue; a
name in both with any of those fields differing is queued as a PATCH whose
payload is the serialized form with the `name` key removed. -/
theorem C1_sync_partition (todo : List (String × Cmd))
    (done : List RemoteCmd) (hnodup : (todo.map Prod.fst).Nodup) :
    (∀ n c, (n, c) ∈ todo → alookup (doneMap done) n = none →
      (n, c.to_dict) ∈ (sync_cmds todo done).post
      ∧ n ∉ ((sync_cmds todo done).patch.map Prod.fst)
      ∧ n ∉ ((sync_cmds todo done).delete.map Prod.fst))
    ∧ (∀ n r, alookup (doneMap done) n = some r → alookup todo n = none →
      (n, r.id) ∈ (sync_cmds todo done).delete
      ∧ n ∉ ((sync_cmds todo done).post.map Prod.fst)
      ∧ n ∉ ((sync_cmds todo done).patch.map Prod.fst))
    ∧ (∀ n c r, (n, c) ∈ todo → alookup (doneMap done) n = some r →
      fieldsEq c.to_dict r = true →
      (n, { c with id := some r.id }) ∈ (sync_cmds todo done).todo
      ∧ n ∉ ((sync_cmds todo done).post.map Prod.fst)
      ∧ n ∉ ((sync_cmds todo done).patch.map Prod.fst)
      ∧ n ∉ ((sync_cmds todo done).delete.map Prod.fst))
    ∧ (∀ n c r, (n, c) ∈ todo → alookup (doneMap done) n = some r →
      fieldsEq c.to_dict r = false →
      (n, { json := c.to_dict.dropName, id := r.id }) ∈
        (sync_cmds todo done).patch
      ∧ n ∉ ((sync_cmds todo done).post.map Prod.fst)
      ∧ n ∉ ((sync_cmds todo done).delete.map Prod.fst)) := by
  refine ⟨?_, ?_, ?_, ?_⟩
  · intro n c hmem hnone
    refine ⟨(mem_post_iff todo done n c.to_dict).mpr
      ⟨⟨c, mem_alookup hnodup hmem, rfl⟩, hnone⟩, ?_, ?_⟩
    · intro hn
      obtain ⟨p, hp, hp1⟩ := List.mem_map.mp hn
      obtain ⟨c2, r, _, hr, _, _⟩ :=
        (mem_patch_iff todo done p.1 p.2).mp (by simpa using hp)
      rw [hp1, hnone] at hr
      cases hr
    · intro hn
      obtain ⟨p, hp, hp1⟩ := List.mem_map.mp hn
      obtain ⟨r, hr, _, _⟩ :=
        (mem_delete_iff todo done p.1 p.2).mp (by simpa using hp)
      rw [hp1, hnone] at hr
      cases hr
  · intro n r hr hnone
    refine ⟨(mem_delete_iff todo done n r.id).mpr ⟨r, hr, rfl, hnone⟩,
      ?_, ?_⟩
    · intro hn
      obtain ⟨p, hp, hp1⟩ := List.mem_map.mp hn
      obtain ⟨⟨c, hc, _⟩, _⟩ :=
        (mem_post_iff todo done p.1 p.2).mp (by simpa using hp)
      rw [hp1, hnone] at hc
      cases hc
    · intro hn
      obtain ⟨p, hp, hp1⟩ := List.mem_map.mp hn
      obtain ⟨c, r2, hc, _, _, _⟩ :=
        (mem_patch_iff todo done p.1 p.2).mp (by simpa using hp)
      rw [hp1, hnone] at hc
      cases hc
  · intro n c r hmem hr hf
    have hlk := mem_alookup hnodup hmem
    refine ⟨mem_todo_adopt hmem hr hf, ?_, ?_, ?_⟩
    · intro hn
      obtain ⟨p, hp, hp1⟩ := List.mem_map.mp hn
      obtain ⟨⟨c2, _, _⟩, hnone⟩ :=
        (mem_post_iff todo done p.1 p.2).mp (by simpa using hp)
      rw [hp1, hr] at hnone
      cases hnone
    · intro hn
      obtain ⟨p, hp, hp1⟩ := List.mem_map.mp hn
      obtain ⟨c2, r2, hc2, hr2, hfe, _⟩ :=
        (mem_patch_iff todo done p.1 p.2).mp (by simpa using hp)
      rw [hp1] at hc2 hr2
      rw [hlk] at hc2
      rw [hr] at hr2
      injection hc2 with hc2
      injection hr2 with hr2
      subst hc2
      subst hr2
      rw [hf] at hfe
      cases hfe
    · intro hn
      obtain ⟨p, hp, hp1⟩ := List.mem_map.mp hn
      obtain ⟨r2, _, _, hnone⟩ :=
        (mem_delete_iff todo done p.1 p.2).mp (by simpa using hp)
      rw [hp1, hlk] at hnone
      cases hnone
  · intro n c r hmem hr hf
    have hlk := mem_alookup hnodup hmem
    refine ⟨(mem_patch_iff todo done n _).mpr ⟨c, r, hlk, hr, hf, rfl⟩,
      ?_, ?_⟩
    · intro hn
      obtain ⟨p, hp, hp1⟩ := List.mem_map.mp hn
      obtain ⟨⟨c2, _, _⟩, hnone⟩ :=
        (mem_post_iff todo done p.1 p.2).mp (by simpa using hp)
      rw [hp1, hr] at hnone
      cases hnone
    · intro hn
      obtain ⟨p, hp, hp1⟩ := List.mem_map.mp hn
      obtain ⟨r2, _, _, hnone⟩ :=
        (mem_delete_iff todo done p.1 p.2).mp (by simpa using hp)
      rw [hp1, hlk] at hnone
      cases hnone

/-- The declared `/ping` command of diff Scenario B. -/
def pingCmd : Cmd := ⟨"ping", "Ping!", [], true, true, none⟩

/-- The identical remote record for `/ping` (remote ID 111). -/
def pingRemote : RemoteCmd := ⟨111, "ping", some "Ping!", none, some true⟩

/-- A stale remote record `/old` (remote ID 222) with no declared
counterpart. -/
def oldRemote : RemoteCmd := ⟨222, "old", some "Old", none, some true⟩

/-- C1 witness (diff Scenario B): declared `{ping}`, remote
`{ping (identical), old}` — `ping` adopts remote ID 111 with no write,
`old` is queued for DELETE, and nothing is queued for POST or PATCH. -/
theorem C1_witness :
    (([("ping", pingCmd)].map Prod.fst).Nodup
      ∧ alookup (doneMap [pingRemote, oldRemote]) "ping" = some pingRemote
      ∧ fieldsEq pingCmd.to_dict pingRemote = true)
    ∧ ("ping", { pingCmd with id := some 111 })
        ∈ (sync_cmds [("ping", pingCmd)] [pingRemote, oldRemote]).todo
    ∧ ("old", 222)
        ∈ (sync_cmds [("ping", pingCmd)] [pingRemote, oldRemote]).delete
    ∧ "ping" ∉ ((sync_cmds [("ping", pingCmd)]
        [pingRemote, oldRemote]).patch.map Prod.fst)
    ∧ (sync_cmds [("ping", pingCmd)] [pingRemote, oldRemote]).post = [] := by
  have h := C1_sync_partition [("ping", pingCmd)] [pingRemote, oldRemote]
    (by decide)
  have hping := h.2.2.1 "ping" pingCmd pingRemote (by decide) (by decide)
    (by decide)
  have hold := h.2.1 "old" oldRemote (by decide) (by decide)
  exact ⟨⟨by decide, by decide, by decide⟩, hping.1, hold.1, hping.2.2.1,
    by decide⟩

/-! ### Claim C2: idempotence of the synchronizer -/

/-- C2: a synchronizer run in which the remote state already agrees with
the local declarations — every declared name has a remote record whose
`name`, `description`, `options` and `default_permission` match the
serialized declaration, and every remote record has a declared counterpart
(the situation after a successful run with no local changes and no remote
drift) — queues zero POST, PATCH and DELETE writes; every declared command
is classified into `to_update` with an identical serialized form and only
its remote ID is adopted. -/
theorem C2_sync_idempotent (todo : List (String × Cmd))
    (done : List RemoteCmd) (hnodup : (todo.map Prod.fst).Nodup)
    (hlocal : todo.all (fun p =>
      match alookup (doneMap done) p.1 with
      | some r => fieldsEq p.2.to_dict r
      | none => false) = true)
    (hremote : (doneMap done).all
      (fun p => (alookup todo p.1).isSome) = true) :
    (sync_cmds todo done).post = []
    ∧ (sync_cmds todo done).patch = []
    ∧ (sync_cmds todo done).delete = []
    ∧ ∀ n c, (n, c) ∈ todo → ∃ r,
        alookup (doneMap done) n = some r
        ∧ fieldsEq c.to_dict r = true
        ∧ (n, { c with id := some r.id }) ∈ (sync_cmds todo done).todo := by
  rw [List.all_eq_true] at hlocal hremote
  have hmatch : ∀ n c, (n, c) ∈ todo → ∃ r,
      alookup (doneMap done) n = some r ∧ fieldsEq c.to_dict r = true := by
    intro n c hmem
    have := hlocal (n, c) hmem
    rcases hr : alookup (doneMap done) n with _ | r
    · rw [hr] at this
      cases this
    · rw [hr] at this
      exact ⟨r, rfl, this⟩
  refine ⟨?_, ?_, ?_, ?_⟩
  · rw [List.eq_nil_iff_forall_not_mem]
    rintro ⟨n, d⟩ hmem
    obtain ⟨⟨c, hc, _⟩, hnone⟩ := (mem_post_iff todo done n d).mp hmem
    obtain ⟨r, hr, _⟩ := hmatch n c (alookup_mem hc)
    rw [hnone] at hr
    cases hr
  · rw [List.eq_nil_iff_forall_not_mem]
    rintro ⟨n, e⟩ hmem
    obtain ⟨c, r, hc, hr, hfe, _⟩ := (mem_patch_iff todo done n e).mp hmem
    obtain ⟨r2, hr2, hf2⟩ := hmatch n c (alookup_mem hc)
    rw [hr] at hr2
    injection hr2 with hr2
    subst hr2
    rw [hf2] at hfe
    cases hfe
  · rw [List.eq_nil_iff_forall_not_mem]
    rintro ⟨n, i⟩ hmem
    obtain ⟨r, hr, _, hnone⟩ := (mem_delete_iff todo done n i).mp hmem
    have := hremote (n, r) (alookup_mem hr)
    rw [hnone] at this
    cases this
  · intro n c hmem
    obtain ⟨r, hr, hf⟩ := hmatch n c hmem
    exact ⟨r, hr, hf, mem_todo_adopt hmem hr hf⟩

/-- C2 witness: the post-first-run state of Scenario B — declared `{ping}`
against remote `{ping (identical)}` — issues no writes and only adopts the
remote ID. -/
theorem C2_witness :
    (([("ping", pingCmd)].map Prod.fst).Nodup
      ∧ ([("ping", pingCmd)].all (fun p =>
          match alookup (doneMap [pingRemote]) p.1 with
          | some r => fieldsEq p.2.to_dict r
          | none => false) = true)
      ∧ ((doneMap [pingRemote]).all
          (fun p => (alookup [("ping", pingCmd)] p.1).isSome) = true))
    ∧ (sync_cmds [("ping", pingCmd)] [pingRemote]).post = []
    ∧ (sync_cmds [("ping", pingCmd)] [pingRemote]).patch = []
    ∧ (sync_cmds [("ping", pingCmd)] [pingRemote]).delete = [] := by
  have h := C2_sync_idempotent [("ping", pingCmd)] [pingRemote]
    (by decide) (by decide) (by decide)
  exact ⟨⟨by decide, by decide, by decide⟩, h.1, h.2.1, h.2.2.1⟩


/-! ### `command.py`: the check chain (`Command.can_run`, `Command.invoke`)

`can_run` walks `self.parent` upward collecting each ancestor group's
`_check` (leaf-most first) and, for cog-attached ancestors, the cog's
`cog_check` (deduplicated by identity); it then appends the collected cog
checks and the bot-level `ctx.client._checks`, reverses the whole list,
appends `self._check`, and runs the checks in order — any check whose
awaited result `is False` (the literal, not merely falsy) fails the run.
`invoke` raises `CheckFailure` when `can_run` is false, otherwise runs the
parent hooks and then the callback.
-/

/-- The value returned by an awaited check coroutine, as far as
`can_run`'s `is False` test observes it. -/
inductive PyRes where
  | pyNone
  | pyBool (b : Bool)
  | pyOther
deriving DecidableEq, Repr

/-- The `is False` test from `can_run`: true only for the literal `False`
(the `None` default return of the implicit no-op check passes). -/
def PyRes.isLitFalse : PyRes → Bool
  | .pyBool false => true
  | _ => false

/-- The exception classes distinguished by `do_invoke`'s handlers:
`commands.CommandError` (which `CheckFailure` subclasses),
`asyncio.CancelledError`, and any other `Exception`. -/
inductive ExcTag where
  | checkFailure
  | cmdError
  | cancelled
  | otherExc
deriving DecidableEq, Repr

/-- The check-relevant record of one command/group node over contexts of
type `γ`: its own `_check`, the optional `cog_check` of an attached cog
(tagged with the cog's identity for the `not in cogs` deduplication), and
its callback body (which may raise). The `parent` back-references of the
source form a chain; a leaf is represented by its own record plus the list
of its ancestors' records in the order the `while parent is not None` loop
visits them (nearest parent first, root last). -/
structure NodeData (γ : Type) where
  ownCheck : γ → PyRes
  cogCheck : Option (Nat × (γ → PyRes))
  body : γ → Except ExcTag Unit

/-- The `while parent is not None` loop of `can_run`: accumulates each
ancestor's `_check` leaf-to-root into `parents` and each cog's `cog_check`
into `cogs` on first encounter. -/
def collectLoop : List (NodeData γ) → List (γ → PyRes) →
    List (Nat × (γ → PyRes)) →
    List (γ → PyRes) × List (Nat × (γ → PyRes))
  | [], parents, cogs => (parents, cogs)
  | node :: ancestors, parents, cogs =>
    let cogs := match node.cogCheck with
      | some (i, f) =>
        if cogs.any (fun p => p.1 == i) then cogs else cogs ++ [(i, f)]
      | none => cogs
    collectLoop ancestors (parents ++ [node.ownCheck]) cogs

/-- The ordered list of checks `can_run` evaluates:
`reverse (parents ++ cogs ++ client._checks) ++ [self._check]`. -/
def can_run_list (clientChecks : List (γ → PyRes)) (self : NodeData γ)
    (ancestors : List (NodeData γ)) : List (γ → PyRes) :=
  let pc := collectLoop ancestors [] []
  ((pc.1 ++ pc.2.map Prod.snd ++ clientChecks).reverse)
    ++ [self.ownCheck]

/-- `Command.can_run`: every check in order must not return the literal
`False`. -/
def can_run (clientChecks : List (γ → PyRes)) (self : NodeData γ)
    (ancestors : List (NodeData γ)) (ctx : γ) : Bool :=
  (can_run_list clientChecks self ancestors).all
    (fun check => !(check ctx).isLitFalse)

/-- `Command.invoke`: raise `CheckFailure` (a `commands.CommandError`)
when `can_run` fails, otherwise run parent hooks and the callback (whose
outcome is the body's). -/
def invoke (clientChecks : List (γ → PyRes)) (self : NodeData γ)
    (ancestors : List (NodeData γ)) (ctx : γ) : Except ExcTag Unit :=
  if can_run clientChecks self ancestors ctx then self.body ctx
  else .error .checkFailure

/-- The cog checks in first-encounter (leaf-to-root) order with the
`not in cogs` deduplication, starting from already-seen tags. -/
def cogChecksFrom : List (NodeData γ) → List (Nat × (γ → PyRes)) →
    List (Nat × (γ → PyRes))
  | [], cogs => cogs
  | node :: ancestors, cogs =>
    cogChecksFrom ancestors (match node.cogCheck with
      | some (i, f) =>
        if cogs.any (fun p => p.1 == i) then cogs else cogs ++ [(i, f)]
      | none => cogs)

theorem collectLoop_eq {γ : Type} : ∀ (ancestors : List (NodeData γ))
    (parents : List (γ → PyRes)) (cogs : List (Nat × (γ → PyRes))),
    collectLoop ancestors parents cogs
      = (parents ++ ancestors.map NodeData.ownCheck,
          cogChecksFrom ancestors cogs)
  | [], parents, cogs => by
    simp [collectLoop, cogChecksFrom]
  | node :: ancestors, parents, cogs => by
    simp only [collectLoop]
    rw [collectLoop_eq ancestors]
    simp [cogChecksFrom]

theorem can_run_list_eq {γ : Type} (clientChecks : List (γ → PyRes))
    (self : NodeData γ) (ancestors : List (NodeData γ)) :
    can_run_list clientChecks self ancestors
      = clientChecks.reverse
        ++ ((cogChecksFrom ancestors []).map Prod.snd).reverse
        ++ (ancestors.map NodeData.ownCheck).reverse
        ++ [self.ownCheck] := by
  show ((collectLoop ancestors [] []).1
      ++ ((collectLoop ancestors [] []).2).map Prod.snd
      ++ clientChecks).reverse ++ [self.ownCheck] = _
  rw [collectLoop_eq ancestors [] []]
  simp [List.reverse_append, List.append_assoc]

/-! ### Claim C4: check-chain order and literal-`False` semantics -/

/-- C4: for a leaf command, the evaluated check chain is exactly the
bot-level checks first (as a block), then the deduplicated cog checks,
then the ancestor group checks in root-to-leaf order, and the leaf's own
check last; the run fails iff some check in the chain returns the literal
`False` (a `None` or any other non-`False` return passes); `invoke` raises
`CheckFailure` exactly when the run fails and otherwise proceeds to the
callback — so a group check returning `False` prevents every descendant
invocation, and the same check returning a non-`False` value permits it
when no other check objects. -/
theorem C4_check_chain {γ : Type} (clientChecks : List (γ → PyRes))
    (self : NodeData γ) (ancestors : List (NodeData γ)) (ctx : γ) :
    (can_run_list clientChecks self ancestors
      = clientChecks.reverse
        ++ ((cogChecksFrom ancestors []).map Prod.snd).reverse
        ++ (ancestors.map NodeData.ownCheck).reverse
        ++ [self.ownCheck])
    ∧ (can_run clientChecks self ancestors ctx = false
        ↔ ∃ check ∈ can_run_list clientChecks self ancestors,
            (check ctx).isLitFalse = true)
    ∧ (∀ g ∈ ancestors, g.ownCheck ctx = .pyBool false →
        invoke clientChecks self ancestors ctx = .error .checkFailure)
    ∧ ((∀ check ∈ can_run_list clientChecks self ancestors,
          (check ctx).isLitFalse = false) →
        invoke clientChecks self ancestors ctx = self.body ctx) := by
  refine ⟨can_run_list_eq clientChecks self ancestors, ?_, ?_, ?_⟩
  · rw [can_run]
    constructor
    · intro h
      by_contra hc
      push_neg at hc
      have hall : (can_run_list clientChecks self ancestors).all
          (fun check => !(check ctx).isLitFalse) = true := by
        rw [List.all_eq_true]
        intro check hmem
        have hnot := hc check hmem
        cases hh : (check ctx).isLitFalse
        · rfl
        · exact absurd hh hnot
      rw [h] at hall
      cases hall
    · rintro ⟨check, hmem, hfalse⟩
      rw [Bool.eq_false_iff]
      intro hall
      rw [List.all_eq_true] at hall
      have := hall check hmem
      rw [hfalse] at this
      simp at this
  · intro g hmem hfalse
    rw [invoke]
    have hmem2 : g.ownCheck ∈ can_run_list clientChecks self ancestors := by
      rw [can_run_list_eq]
      simp only [List.mem_append]
      refine Or.inl (Or.inr (List.mem_reverse.mpr ?_))
      exact List.mem_map.mpr ⟨g, hmem, rfl⟩
    have hcr : can_run clientChecks self ancestors ctx = false := by
      rw [can_run, Bool.eq_false_iff]
      intro hall
      rw [List.all_eq_true] at hall
      have := hall g.ownCheck hmem2
      rw [hfalse] at this
      simp [PyRes.isLitFalse] at this
    rw [hcr]
    simp
  · intro hpass
    rw [invoke]
    have hcr : can_run clientChecks self ancestors ctx = true := by
      rw [can_run, List.all_eq_true]
      intro check hmem
      have := hpass check hmem
      simp [this]
    rw [hcr]
    simp

/-- A group whose check returns the literal `False` for every context. -/
def denyGroup : NodeData Unit :=
  ⟨fun _ => .pyBool false, none, fun _ => .ok ()⟩

/-- A group whose check returns `None` (the "no opinion" value). -/
def noneGroup : NodeData Unit :=
  ⟨fun _ => .pyNone, none, fun _ => .ok ()⟩

/-- A leaf subcommand whose own check passes. -/
def passingLeaf : NodeData Unit :=
  ⟨fun _ => .pyNone, none, fun _ => .ok ()⟩

theorem under_none_chain :
    can_run_list ([] : List (Unit → PyRes)) passingLeaf [noneGroup]
      = [fun _ => PyRes.pyNone, fun _ => PyRes.pyNone] := by
  rw [can_run_list_eq]
  simp [noneGroup, passingLeaf, cogChecksFrom]

/-- C4 witness (check Scenario D): under a group whose check returns the
literal `False` the subcommand invocation raises `CheckFailure`; under the
same tree with the check returning `None` the invocation proceeds to the
callback, which succeeds. -/
theorem C4_witness :
    (denyGroup ∈ [denyGroup]
      ∧ denyGroup.ownCheck () = .pyBool false)
    ∧ invoke [] passingLeaf [denyGroup] () = .error .checkFailure
    ∧ invoke [] passingLeaf [noneGroup] () = .ok () := by
  have h1 := (C4_check_chain ([] : List (Unit → PyRes)) passingLeaf
    [denyGroup] ()).2.2.1 denyGroup (List.mem_cons_self _ _) rfl
  have h2 := (C4_check_chain ([] : List (Unit → PyRes)) passingLeaf
    [noneGroup] ()).2.2.2
    (by
      intro check hc
      rw [under_none_chain] at hc
      rcases List.mem_cons.mp hc with hc | hc
      · subst hc
        rfl
      · rcases List.mem_cons.mp hc with hc | hc
        · subst hc
          rfl
        · cases hc)
  exact ⟨⟨List.mem_cons_self _ _, rfl⟩, h1, h2.trans rfl⟩


/-! ### `bot.py`: dispatch (`handle_slash_command`, `do_invoke`)

`handle_slash_command` looks the command up by remote ID, then by
name + guild, then by name alone; if all three fail it **raises**
`commands.CommandNotFound` (the exception leaves the handler — it is not
dispatched as a `command_error` event). Otherwise it builds the context
and calls `do_invoke`, which converts a `commands.CommandError` (such as
the `CheckFailure` from `can_run`) into a `command_error` dispatch,
returns silently on `asyncio.CancelledError`, and wraps any other
exception in `CommandInvokeError` before dispatching it as
`command_error`.
-/

/-- What `do_invoke` does with the outcome of `ctx.command.invoke(ctx)`. -/
inductive DispatchAction where
  | completed
  | dispatchedCommandError (e : ExcTag)
  | swallowed
deriving DecidableEq, Repr

/-- The outcome of `handle_slash_command` as seen by its caller (the
collaborator's event loop): either the interaction was handled (with some
dispatch action) or an exception escaped the handler. -/
inductive HandleResult where
  | handled (a : DispatchAction)
  | raisedToCaller
deriving DecidableEq, Repr

/-- `SlashBot.do_invoke` from `bot.py`, as a function of the invocation
outcome: `commands.CommandError` subclasses are dispatched as
`command_error`; `CancelledError` returns silently; any other exception is
wrapped (`CommandInvokeError`) and dispatched as `command_error`. -/
def do_invoke : Except ExcTag Unit → DispatchAction
  | .ok _ => .completed
  | .error .checkFailure => .dispatchedCommandError .checkFailure
  | .error .cmdError => .dispatchedCommandError .cmdError
  | .error .cancelled => .swallowed
  | .error .otherExc => .dispatchedCommandError .otherExc

/-- The lookup-relevant part of an interaction event: `data.id`,
`data.name`, and the raw `guild_id`. -/
structure SlashEvent where
  dataId : Nat
  dataName : String
  guild_id : Option Nat
deriving DecidableEq, Repr

/-- `int(event['guild_id'] or 0) or None` from `handle_slash_command`. -/
def normGuild : Option Nat → Option Nat
  | none => none
  | some g => if g = 0 then none else some g

/-- A registered top-level command as the dispatcher sees it: remote `id`
(`None` until registered), `name`, `guild_id`, and the leaf node (with its
ancestor chain) that invocation reaches for this event. -/
structure RegCmd (γ : Type) where
  id : Option Nat
  name : String
  guild_id : Option Nat
  node : NodeData γ
  ancestors : List (NodeData γ)

/-- The three-stage lookup of `handle_slash_command`:
by remote ID, then by name + guild, then by name alone. -/
def findCmd (registry : List (RegCmd γ)) (ev : SlashEvent) :
    Option (RegCmd γ) :=
  match registry.find? (fun c => c.id == some ev.dataId) with
  | some c => some c
  | none =>
    match registry.find? (fun c =>
        c.name == ev.dataName && c.guild_id == normGuild ev.guild_id) with
    | some c => some c
    | none => registry.find? (fun c => c.name == ev.dataName)

/-- `SlashBot.handle_slash_command` from `bot.py`: raise `CommandNotFound`
out of the handler when no command matches, else run `do_invoke` on the
invocation outcome. -/
def handle_slash_command (clientChecks : List (γ → PyRes))
    (registry : List (RegCmd γ)) (ev : SlashEvent) (ctx : γ) :
    HandleResult :=
  match findCmd registry ev with
  | none => .raisedToCaller
  | some c =>
    .handled (do_invoke (invoke clientChecks c.node c.ancestors ctx))

/-- Whether a handler outcome is a `command_error` dispatch. -/
def HandleResult.isDispatchedCmdError : HandleResult → Bool
  | .handled (.dispatchedCommandError _) => true
  | _ => false

/-! ### Claim C5: error containment in dispatch -/

/-- C5 (counterexample): an interaction whose command is not found is NOT
converted into a `command_error` dispatch — `handle_slash_command` raises
`commands.CommandNotFound` to its caller (the event loop), unlike
check failures and callback exceptions. -/
theorem C5_counterexample :
    handle_slash_command ([] : List (Unit → PyRes))
        ([] : List (RegCmd Unit)) ⟨1, "ping", none⟩ ()
      = .raisedToCaller
    ∧ (handle_slash_command ([] : List (Unit → PyRes))
        ([] : List (RegCmd Unit)) ⟨1, "ping", none⟩ ()).isDispatchedCmdError
      = false :=
  ⟨rfl, rfl⟩

/-- C5 (amended): for every dispatched interaction whose command is found,
a check failure, a `commands.CommandError`, and an arbitrary exception
raised by the callback are each converted into a `command_error`
notification through the error-dispatch channel (the arbitrary exception
wrapped as `CommandInvokeError`), and a cancellation raised during
invocation is silently swallowed and not reported; a failed lookup,
however, raises `CommandNotFound` synchronously out of the handler instead
of dispatching a command error. -/
theorem C5_error_containment {γ : Type} (clientChecks : List (γ → PyRes))
    (registry : List (RegCmd γ)) (ev : SlashEvent) (ctx : γ) :
    (findCmd registry ev = none →
      handle_slash_command clientChecks registry ev ctx = .raisedToCaller)
    ∧ (∀ c, findCmd registry ev = some c →
      (handle_slash_command clientChecks registry ev ctx
        = .handled (do_invoke (invoke clientChecks c.node c.ancestors ctx)))
      ∧ (invoke clientChecks c.node c.ancestors ctx = .error .checkFailure →
        handle_slash_command clientChecks registry ev ctx
          = .handled (.dispatchedCommandError .checkFailure))
      ∧ (invoke clientChecks c.node c.ancestors ctx = .error .cmdError →
        handle_slash_command clientChecks registry ev ctx
          = .handled (.dispatchedCommandError .cmdError))
      ∧ (invoke clientChecks c.node c.ancestors ctx = .error .otherExc →
        handle_slash_command clientChecks registry ev ctx
          = .handled (.dispatchedCommandError .otherExc))
      ∧ (invoke clientChecks c.node c.ancestors ctx = .error .cancelled →
        handle_slash_command clientChecks registry ev ctx
          = .handled .swallowed)
      ∧ (invoke clientChecks c.node c.ancestors ctx = .ok () →
        handle_slash_command clientChecks registry ev ctx
          = .handled .completed)) := by
  constructor
  · intro h
    rw [handle_slash_command, h]
  · intro c hc
    have hbase : handle_slash_command clientChecks registry ev ctx
        = .handled (do_invoke (invoke clientChecks c.node c.ancestors ctx)) := by
      rw [handle_slash_command, hc]
    refine ⟨hbase, ?_, ?_, ?_, ?_, ?_⟩
    all_goals intro h
    all_goals rw [hbase, h]
    all_goals rfl

/-- A registered command whose callback raises an arbitrary exception. -/
def boomCmd : RegCmd Unit :=
  ⟨some 1, "boom", none, ⟨fun _ => .pyNone, none, fun _ => .error .otherExc⟩,
    []⟩

/-- C5 witness: a found command whose callback raises an arbitrary
exception results in a `command_error` dispatch of the wrapped error. -/
theorem C5_witness :
    (findCmd [boomCmd] ⟨1, "boom", none⟩ = some boomCmd
      ∧ invoke ([] : List (Unit → PyRes)) boomCmd.node boomCmd.ancestors ()
        = .error .otherExc)
    ∧ handle_slash_command ([] : List (Unit → PyRes)) [boomCmd]
        ⟨1, "boom", none⟩ ()
      = .handled (.dispatchedCommandError .otherExc) := by
  have h := (C5_error_containment ([] : List (Unit → PyRes)) [boomCmd]
    ⟨1, "boom", none⟩ ()).2 boomCmd rfl
  exact ⟨⟨rfl, rfl⟩, h.2.2.2.1 rfl⟩


/-! ### `components.py`: message components

`ButtonStyle` is imported by `components.py` from `simples.py` but its
declaration is not in the source snapshot; the members and wire values
below are the platform's published button styles (only `LINK = 5` is
tested by the source). -/

/-- Button styles (`ButtonStyle`): four colors and one link style. -/
inductive ButtonStyle where
  | PRIMARY
  | SECONDARY
  | SUCCESS
  | DANGER
  | LINK
deriving DecidableEq, Repr

/-- The wire integer of each `ButtonStyle` member. -/
def ButtonStyle.toInt : ButtonStyle → Int
  | .PRIMARY => 1
  | .SECONDARY => 2
  | .SUCCESS => 3
  | .DANGER => 4
  | .LINK => 5

/-- A `discord.PartialEmoji`, opaque to this library (only `to_dict` is
called on it); carried as its serialized payload. -/
structure PartialEmoji where
  payload : Nat
deriving DecidableEq, Repr

/-- `Button` from `components.py`. -/
structure Button where
  style : ButtonStyle
  label : Option String
  emoji : Option PartialEmoji
  custom_id : Option String
  url : Option String
  disabled : Bool
deriving DecidableEq, Repr

/-- Python truthiness of an optional string (`None` and `''` are falsy). -/
def strTruthy : Option String → Bool
  | none => false
  | some s => s ≠ ""

/-- The exception classes raised on the response path: `TypeError` for
conflicting arguments and `ValueError` for the content contract. -/
inductive PyErr where
  | typeErr
  | valueErr
deriving DecidableEq, Repr

/-- `Button.__init__` from `components.py`, with its argument
validation. -/
def buttonInit (style : ButtonStyle) (label : Option String)
    (emoji : Option PartialEmoji) (custom_id : Option String)
    (url : Option String) (disabled : Bool) : Except PyErr Button :=
  if style = .LINK then
    if custom_id.isSome then .error .typeErr
    else if !(strTruthy url) then .error .typeErr
    else if label.isNone && emoji.isNone then .error .typeErr
    else .ok ⟨style, label, emoji, custom_id, url, disabled⟩
  else
    if !(strTruthy custom_id) then .error .typeErr
    else if url.isSome then .error .typeErr
    else if label.isNone && emoji.isNone then .error .typeErr
    else .ok ⟨style, label, emoji, custom_id, url, disabled⟩

/-- Serialized `Button` (`Button.to_dict`): `label`, `emoji`, `custom_id`
and `url` present only when truthy. -/
structure ButtonDict where
  type : Int
  style : Int
  disabled : Bool
  label : Option String
  emoji : Option Nat
  custom_id : Option String
  url : Option String
deriving DecidableEq, Repr

/-- `Button.to_dict` from `components.py`. -/
def Button.to_dict (b : Button) : ButtonDict :=
  { type := 2
    style := b.style.toInt
    disabled := b.disabled
    label := if strTruthy b.label then b.label else none
    emoji := if b.emoji.isSome then b.emoji.map PartialEmoji.payload
      else none
    custom_id := if strTruthy b.custom_id then b.custom_id else none
    url := if strTruthy b.url then b.url else none }

/-- `SelectOption` from `components.py` (a dataclass). -/
structure SelectOption where
  label : String
  value : String
  description : Option String
  emoji : Option PartialEmoji
  default : Bool
deriving DecidableEq, Repr

/-- Serialized `SelectOption` (`SelectOption.to_dict`). -/
structure SelectOptionDict where
  label : String
  value : String
  default : Bool
  description : Option String
  emoji : Option Nat
deriving DecidableEq, Repr

/-- `SelectOption.to_dict` from `components.py`. -/
def SelectOption.to_dict (o : SelectOption) : SelectOptionDict :=
  { label := o.label
    value := o.value
    default := o.default
    description := if strTruthy o.description then o.description else none
    emoji := if o.emoji.isSome then o.emoji.map PartialEmoji.payload
      else none }

/-- `SelectMenu` from `components.py`. -/
structure SelectMenu where
  custom_id : String
  options : List SelectOption
  placeholder : Option String
  min_values : Int
  max_values : Int
  disabled : Bool
deriving DecidableEq, Repr

/-- Serialized `SelectMenu` (`SelectMenu.to_dict`). -/
structure SelectMenuDict where
  type : Int
  custom_id : String
  options : List SelectOptionDict
  min_values : Int
  max_values : Int
  disabled : Bool
  placeholder : Option String
deriving DecidableEq, Repr

/-- `SelectMenu.to_dict` from `components.py`. -/
def SelectMenu.to_dict (m : SelectMenu) : SelectMenuDict :=
  { type := 3
    custom_id := m.custom_id
    options := m.options.map SelectOption.to_dict
    min_values := m.min_values
    max_values := m.max_values
    disabled := m.disabled
    placeholder := if strTruthy m.placeholder then m.placeholder
      else none }

/-- `Union[Button, SelectMenu]` — the subcomponents an `ActionRow` can
hold (`NonActionRow` in the source). -/
inductive NonActionRow where
  | btn (b : Button)
  | sel (s : SelectMenu)
deriving DecidableEq, Repr

/-- A serialized subcomponent. -/
inductive CompDict where
  | btn (b : ButtonDict)
  | sel (s : SelectMenuDict)
deriving DecidableEq, Repr

/-- `ActionRow` from `components.py`: a container of subcomponents. -/
structure ActionRow where
  components : List NonActionRow
deriving DecidableEq, Repr

/-- The first positional argument of `ActionRow(...)`: either a single
subcomponent or an iterable of subcomponents. -/
inductive RowFirst where
  | comp (c : NonActionRow)
  | iter (cs : List NonActionRow)
deriving DecidableEq, Repr

/-- `ActionRow.__init__` from `components.py`: a `SelectMenu` first
argument stands alone (the remaining positional arguments are dropped); a
`Button` first argument is followed by the rest; anything else is treated
as an iterable of subcomponents followed by the rest. -/
def ActionRow.init (first : RowFirst) (args : List Button) : ActionRow :=
  match first with
  | .comp (.sel s) => ⟨[.sel s]⟩
  | .comp (.btn b) => ⟨.btn b :: args.map NonActionRow.btn⟩
  | .iter cs => ⟨cs ++ args.map NonActionRow.btn⟩

/-- Serialized `ActionRow` (`ActionRow.to_dict`): `type = 1` and every
held subcomponent, serialized. -/
structure RowDict where
  type : Int
  components : List CompDict
deriving DecidableEq, Repr

/-- `ActionRow.to_dict` from `components.py`. -/
def ActionRow.to_dict (r : ActionRow) : RowDict :=
  { type := 1
    components := r.components.map (fun c =>
      match c with
      | .btn b => .btn b.to_dict
      | .sel s => .sel s.to_dict) }

/-! ### `context.py`: message payload building (`BaseContext._message_data`)

`_message_data` merges the `embed`/`embeds` and `file`/`files` shorthands
(raising `TypeError` when both of a pair are given), serializes at most 10
embeds (`zip(embeds, range(10))`) and at most 5 action rows
(`zip(components, range(5))`), and returns either a JSON dict or — when
files are attached — a multipart form whose `payload_json` part carries
the dict plus an `attachments` list. A `None` iterable argument and an
empty one are indistinguishable to every truthiness test and list
conversion in this path, so both are carried as `[]`; the out-of-scope
`allowed_mentions` rendering field is elided. -/

/-- A `discord.Embed`, opaque to this library; carried as its serialized
payload. -/
structure Embed where
  payload : Nat
deriving DecidableEq, Repr

/-- `Embed.to_dict`. -/
def Embed.to_dict (e : Embed) : Nat := e.payload

/-- A `discord.File` attachment. -/
structure File where
  filename : String
deriving DecidableEq, Repr

/-- The message-payload dict built by `_message_data`: each key present
only when its value is truthy (`attachments` and `flags` are added later,
by the form path and by `respond` respectively). -/
structure DataDict where
  content : Option String
  embeds : Option (List Nat)
  components : Option (List RowDict)
  attachments : Option (List (Nat × String))
  flags : Option Nat
deriving DecidableEq, Repr

/-- The value `_message_data` returns: a JSON dict, or a multipart form
(payload dict plus file parts). -/
inductive MsgData where
  | json (d : DataDict)
  | form (d : DataDict) (files : List File)
deriving DecidableEq, Repr

/-- The payload `_message_data` builds once the shorthand-conflict checks
have passed: embeds capped at 10, action rows capped at 5, singular
shorthands expanded, and the form wrapper when files are present. -/
def message_data_build (content : String) (embed : Option Embed)
    (embeds : List Embed) (components : List ActionRow)
    (file : Option File) (files : List File) : MsgData :=
  -- if embed: embeds = [embed]
  let embeds := match embed with
    | some e => [e]
    | none => embeds
  -- embeds = [emb.to_dict() for emb, _ in zip(embeds, range(10))]
  let embedDicts := (embeds.take 10).map Embed.to_dict
  -- components = [c.to_dict() for c, _ in zip(components, range(5))]
  let compDicts := (components.take 5).map ActionRow.to_dict
  -- if isinstance(file, discord.File): files = [file]
  let files := match file with
    | some f => [f]
    | none => files
  let data : DataDict :=
    { content := if content = "" then none else some content
      embeds := if embedDicts.isEmpty then none else some embedDicts
      components := if compDicts.isEmpty then none else some compDicts
      attachments := none
      flags := none }
  if files.isEmpty then .json data
  else
    let attach := files.enum.map (fun p => (p.1, p.2.filename))
    .form { data with attachments := some attach } files

/-- `BaseContext._message_data` from `context.py`. -/
def message_data (content : String) (embed : Option Embed)
    (embeds : List Embed) (components : List ActionRow)
    (file : Option File) (files : List File) : Except PyErr MsgData :=
  -- if embed and embeds: raise TypeError
  if embed.isSome && !embeds.isEmpty then .error .typeErr
  -- if file and files: raise TypeError
  else if file.isSome && !files.isEmpty then .error .typeErr
  else .ok (message_data_build content embed embeds components file files)

/-! ### `context.py`: the response state machine (`BaseContext.respond`)

On a context whose `webhook` is still `None` (unresponded), `respond`
POSTs the initial callback payload to
`/interactions/{id}/{token}/callback` and sets `self.webhook`; on a
context whose `webhook` is set (responded), it PATCHes
`/webhooks/{app_id}/{token}/messages/@original`. The content-contract
`ValueError` fires only in the unresponded branch, when
`content or embeds or files` is falsy (the **plural** `embeds` parameter
and the file arguments — the singular `embed` shorthand and `components`
are not consulted) and the response type is
`CHANNEL_MESSAGE_WITH_SOURCE`.
-/

inductive HttpMethod where
  | GET
  | POST
  | PATCH
  | PUT
  | DELETE
deriving DecidableEq, Repr

/-- The two routes `respond` writes to. -/
inductive RoutePath where
  | interactionCallback
  | webhookOriginal
deriving DecidableEq, Repr

/-- The `{'type': int(rtype), 'data': ...}` callback wrapper of the
initial response. -/
structure CallbackData where
  type : Int
  data : Option DataDict
deriving DecidableEq, Repr

/-- The request body `respond` hands to `http.request`: `json=data` with
the callback wrapper (new response) or the raw message dict (edit), or
the corresponding multipart forms when files are attached. -/
inductive RespBody where
  | json (d : CallbackData)
  | jsonRaw (d : DataDict)
  | form (payload : CallbackData) (files : List File)
  | formRaw (payload : DataDict) (files : List File)
deriving DecidableEq, Repr

/-- One HTTP write issued by `respond`. -/
structure HttpReq where
  method : HttpMethod
  path : RoutePath
  body : RespBody
deriving DecidableEq, Repr

/-- The arguments of `Context.respond` (message data plus the
new-response-specific parameters). -/
structure RespondArgs where
  content : String
  rtype : Option InteractionCallbackType
  embed : Option Embed
  embeds : List Embed
  components : List ActionRow
  file : Option File
  files : List File
  ephemeral : Bool
  deferred : Bool
  flags : Option Nat
deriving DecidableEq, Repr

/-- `Context._rtype_defaults` from `context.py` (slash-command contexts):
`deferred` forces the deferred type, otherwise a given (always truthy)
`rtype` is kept, otherwise `CHANNEL_MESSAGE_WITH_SOURCE`. -/
def rtype_defaults (rtype : Option InteractionCallbackType)
    (deferred : Bool) : InteractionCallbackType :=
  if deferred then .DEFERRED_CHANNEL_MESSAGE_WITH_SOURCE
  else match rtype with
    | some r => r
    | none => .CHANNEL_MESSAGE_WITH_SOURCE

/-- An empty message dict (the `data.setdefault('data', {})` default). -/
def emptyDataDict : DataDict := ⟨none, none, none, none, none⟩

/-- The responded-state branch of `respond`: PATCH the original message
via the token webhook, with the message dict as the whole body. -/
def respondEdit (msg_data : MsgData) : Except PyErr (Bool × HttpReq) :=
  let body := match msg_data with
    | .json d => RespBody.jsonRaw d
    | .form d fs => RespBody.formRaw d fs
  .ok (true, ⟨.PATCH, .webhookOriginal, body⟩)

/-- `files` as the unresponded branch of `respond` sees it after the
`file = [file]` shorthand. -/
def filesLocal (a : RespondArgs) : List File :=
  match a.file with
  | some f => [f]
  | none => a.files

/-- The `content or embeds or files` truthiness test guarding the data
attachment and the content-contract `ValueError`. It reads the **plural**
`embeds` argument and the file arguments; the singular `embed` shorthand
and `components` are not consulted. -/
def hasVisibleContent (a : RespondArgs) : Bool :=
  !(a.content == "") || !a.embeds.isEmpty || !(filesLocal a).isEmpty

/-- The unresponded-state branch of `respond`: build the callback wrapper
(attaching the message dict only when `content or embeds or files` is
truthy, raising `ValueError` otherwise for `CHANNEL_MESSAGE_WITH_SOURCE`),
apply the `ephemeral`/`flags` shortcuts, POST to the interaction callback
route, and capture the followup webhook (the `true` state). -/
def respondNew (rtype : InteractionCallbackType) (a : RespondArgs)
    (msg_data : MsgData) : Except PyErr (Bool × HttpReq) :=
  -- if content or embeds or files: ... elif rtype == CHANNEL_MESSAGE...:
  if !hasVisibleContent a && (rtype == .CHANNEL_MESSAGE_WITH_SOURCE) then
    .error .valueErr
  else
    let dataDict : Option DataDict :=
      if hasVisibleContent a then some (match msg_data with
        | .json d => d
        | .form d _ => d)
      else none
    -- if ephemeral: flags = (flags or 0) | EPHEMERAL
    let flags := if a.ephemeral then some ((a.flags.getD 0) ||| 64)
      else a.flags
    let flagsTruthy := match flags with
      | some f => f != 0
      | none => false
    let cbData : CallbackData := ⟨rtype.toInt, dataDict⟩
    -- if flags: data.setdefault('data', {})['flags'] = int(flags)
    let inner := cbData.data.getD emptyDataDict
    let cbData := if flagsTruthy then
        { cbData with data := some ({ inner with flags := flags }) }
      else cbData
    let body := match msg_data with
      | .json _ => RespBody.json cbData
      | .form _ fs => RespBody.form cbData fs
    .ok (true, ⟨.POST, .interactionCallback, body⟩)

/-- `BaseContext.respond` from `context.py` for slash-command contexts, as
a function of the state (`webhook is not None`): returns the new state and
the single HTTP write, or the raised exception. -/
def respond (webhook : Bool) (a : RespondArgs) :
    Except PyErr (Bool × HttpReq) :=
  let rtype := rtype_defaults a.rtype a.deferred
  match message_data a.content a.embed a.embeds a.components
      a.file a.files with
  | .error e => .error e
  | .ok msg_data =>
    if webhook then respondEdit msg_data
    else respondNew rtype a msg_data

theorem message_data_error_typeErr {content : String} {embed : Option Embed}
    {embeds : List Embed} {components : List ActionRow} {file : Option File}
    {files : List File} {e : PyErr}
    (h : message_data content embed embeds components file files
      = .error e) : e = .typeErr := by
  rw [message_data] at h
  split at h
  · injection h with h
    exact h.symm
  · split at h
    · injection h with h
      exact h.symm
    · cases h

theorem message_data_noFiles_ok (content : String) (embed : Option Embed)
    (components : List ActionRow) :
    ∃ d, message_data content embed [] components none []
      = .ok (.json d) := by
  simp only [message_data]
  cases embed <;> simp [message_data_build]


theorem respond_false_eq (a : RespondArgs) :
    respond false a
      = (match message_data a.content a.embed a.embeds a.components
            a.file a.files with
        | .error e => .error e
        | .ok md => respondNew (rtype_defaults a.rtype a.deferred) a md) :=
  rfl

theorem respond_true_eq (a : RespondArgs) :
    respond true a
      = (match message_data a.content a.embed a.embeds a.components
            a.file a.files with
        | .error e => .error e
        | .ok md => respondEdit md) := by
  rw [respond]
  rcases message_data a.content a.embed a.embeds a.components
      a.file a.files with e | md
  · rfl
  · rfl

theorem respondNew_ok_shape {rtype : InteractionCallbackType}
    {a : RespondArgs} {md : MsgData} {st : Bool} {r : HttpReq}
    (h : respondNew rtype a md = .ok (st, r)) :
    st = true ∧ r.method = .POST ∧ r.path = .interactionCallback := by
  rw [respondNew.eq_def] at h
  split at h
  · cases h
  · injection h with h
    injection h with h1 h2
    subst h1
    subst h2
    exact ⟨rfl, rfl, rfl⟩

theorem respondEdit_shape {md : MsgData} {st : Bool} {r : HttpReq}
    (h : respondEdit md = .ok (st, r)) :
    st = true ∧ r.method = .PATCH ∧ r.path = .webhookOriginal := by
  rw [respondEdit.eq_def] at h
  injection h with h
  injection h with h1 h2
  subst h1
  subst h2
  exact ⟨rfl, rfl, rfl⟩

/-! ### Claim C6: the response state machine responds once, then edits -/

/-- C6: on a fresh (unresponded) context, a successful `respond` issues
one POST to the interaction callback route and moves the context to the
responded state (webhook captured); on a responded context, every
successful `respond` issues a PATCH editing the already-sent original
message through the followup route, never a second independent message,
and the state stays responded. -/
theorem C6_respond_once_then_edit (a : RespondArgs) :
    (∀ st r, respond false a = .ok (st, r) →
      st = true ∧ r.method = .POST ∧ r.path = .interactionCallback)
    ∧ (∀ st r, respond true a = .ok (st, r) →
      st = true ∧ r.method = .PATCH ∧ r.path = .webhookOriginal) := by
  constructor
  · intro st r h
    rw [respond_false_eq] at h
    rcases hmd : message_data a.content a.embed a.embeds a.components
        a.file a.files with e | md
    · rw [hmd] at h
      cases h
    · rw [hmd] at h
      exact respondNew_ok_shape h
  · intro st r h
    rw [respond_true_eq] at h
    rcases hmd : message_data a.content a.embed a.embeds a.components
        a.file a.files with e | md
    · rw [hmd] at h
      cases h
    · rw [hmd] at h
      exact respondEdit_shape h

/-- `respond("hi")` — the first call of response Scenario E. -/
def argsHi : RespondArgs :=
  ⟨"hi", none, none, [], [], none, [], false, false, none⟩

/-- `respond("bye")` — the second call of response Scenario E. -/
def argsBye : RespondArgs :=
  ⟨"bye", none, none, [], [], none, [], false, false, none⟩

/-- The POST issued by the first call of Scenario E. -/
def hiReq : HttpReq :=
  ⟨.POST, .interactionCallback,
    .json ⟨4, some ⟨some "hi", none, none, none, none⟩⟩⟩

/-- The PATCH issued by the second call of Scenario E. -/
def byeReq : HttpReq :=
  ⟨.PATCH, .webhookOriginal, .jsonRaw ⟨some "bye", none, none, none, none⟩⟩

/-- C6 witness (response Scenario E): `respond("hi")` on a fresh context
then `respond("bye")` on the now-responded context is one POST of a new
message followed by one PATCH of the original message. -/
theorem C6_witness :
    (respond false argsHi = .ok (true, hiReq)
      ∧ respond true argsBye = .ok (true, byeReq))
    ∧ (true = true ∧ hiReq.method = .POST
      ∧ hiReq.path = .interactionCallback)
    ∧ (true = true ∧ byeReq.method = .PATCH
      ∧ byeReq.path = .webhookOriginal) := by
  refine ⟨⟨rfl, rfl⟩, ?_, ?_⟩
  · exact (C6_respond_once_then_edit argsHi).1 true hiReq rfl
  · exact (C6_respond_once_then_edit argsBye).2 true byeReq rfl

/-! ### Claim C7: the content-contract `ValueError` -/

theorem respondNew_valueErr_iff (rtype : InteractionCallbackType)
    (a : RespondArgs) (md : MsgData) :
    respondNew rtype a md = .error .valueErr ↔
      (hasVisibleContent a = false
        ∧ rtype = .CHANNEL_MESSAGE_WITH_SOURCE) := by
  rw [respondNew.eq_def]
  split
  · next hcond =>
    simp only [Bool.and_eq_true, Bool.not_eq_true', beq_iff_eq] at hcond
    simp [hcond]
  · next hcond =>
    simp only [Bool.and_eq_true, Bool.not_eq_true', beq_iff_eq] at hcond
    simp only [not_and] at hcond
    constructor
    · intro h
      cases h
    · rintro ⟨h1, h2⟩
      exact absurd h2 (hcond h1)

/-- A button usable in a concrete action row. -/
def demoButton : Button :=
  ⟨.PRIMARY, some "hi", none, some "b1", none, false⟩

/-- An action row holding a single button. -/
def demoRow : ActionRow := ActionRow.init (.comp (.btn demoButton)) []

/-- A first respond call carrying only `components` (no content, embeds
or files). -/
def argsCompOnly : RespondArgs :=
  ⟨"", none, none, [], [demoRow], none, [], false, false, none⟩

/-- C7 (counterexample): a first respond call whose message carries
components (but no content, plural embeds, or files) with the default
response type still raises the content-contract `ValueError`, although
the claim says a message carrying components must not. -/
theorem C7_counterexample :
    respond false argsCompOnly = .error .valueErr
    ∧ argsCompOnly.components ≠ [] := by
  exact ⟨rfl, by decide⟩

/-- C7 (amended): a first (state-transitioning) respond call raises the
content-contract `ValueError` iff the `content` argument is empty, the
**plural** `embeds` argument is empty or absent, no file is attached
(neither `file` nor `files`), and the resolved response type is
`CHANNEL_MESSAGE_WITH_SOURCE` — `components` and the singular `embed`
shorthand do not count as content for this check; the acknowledgment-only
and deferred response types (and every other non-`CHANNEL_MESSAGE` type)
never raise it. -/
theorem C7_content_validation (a : RespondArgs) :
    respond false a = .error .valueErr ↔
      (a.content = "" ∧ a.embeds = [] ∧ a.file = none ∧ a.files = []
        ∧ rtype_defaults a.rtype a.deferred
            = .CHANNEL_MESSAGE_WITH_SOURCE) := by
  rw [respond_false_eq]
  rcases hmd : message_data a.content a.embed a.embeds a.components
      a.file a.files with e | md
  · have he := message_data_error_typeErr hmd
    subst he
    constructor
    · intro h
      injection h with h
      cases h
    · rintro ⟨h1, h2, h3, h4, h5⟩
      rw [h2, h3, h4] at hmd
      obtain ⟨d, hd⟩ := message_data_noFiles_ok a.content a.embed
        a.components
      rw [hd] at hmd
      cases hmd
  · rw [respondNew_valueErr_iff]
    unfold hasVisibleContent filesLocal
    constructor
    · rintro ⟨hv, hr⟩
      simp only [Bool.or_eq_false_iff, Bool.not_eq_false', beq_iff_eq,
        List.isEmpty_iff] at hv
      obtain ⟨⟨hc, hemb⟩, hfl⟩ := hv
      rcases hf : a.file with _ | f
      · rw [hf] at hfl
        exact ⟨hc, hemb, rfl, hfl, hr⟩
      · rw [hf] at hfl
        cases hfl
    · rintro ⟨h1, h2, h3, h4, h5⟩
      refine ⟨?_, h5⟩
      rw [h1, h2, h3, h4]
      decide


/-! ### Claim C8: payload truncation boundaries -/

theorem message_data_simple_eq (content : String) (embeds : List Embed)
    (components : List ActionRow) :
    message_data content none embeds components none []
      = .ok (.json
          { content := if content = "" then none else some content
            embeds := if ((embeds.take 10).map Embed.to_dict).isEmpty
              then none else some ((embeds.take 10).map Embed.to_dict)
            components :=
              if ((components.take 5).map ActionRow.to_dict).isEmpty
              then none
              else some ((components.take 5).map ActionRow.to_dict)
            attachments := none
            flags := none }) := by
  rw [message_data.eq_def]
  simp [message_data_build]

/-- C8 (counterexample): `ActionRow` does not cap buttons at 5 — a row
constructed from six buttons serializes all six subcomponents. -/
theorem C8_counterexample :
    (ActionRow.init (.comp (.btn demoButton))
        [demoButton, demoButton, demoButton, demoButton, demoButton]
      ).to_dict.components.length = 6
    ∧ ¬(6 ≤ 5) :=
  ⟨rfl, by decide⟩

/-- C8 (amended): in the message payload, embeds beyond the first 10 are
silently discarded and action rows beyond the first 5 are silently
discarded; an action row constructed with a select menu as its direct
first argument holds exactly that one menu (further positional arguments
are dropped); a row built from buttons holds every button given — no
5-button-per-row cap is enforced. -/
theorem C8_payload_truncation (content : String) (embeds : List Embed)
    (components : List ActionRow) :
    (∀ d, message_data content none embeds components none []
        = .ok (.json d) →
      (∀ l, d.embeds = some l →
        l = (embeds.take 10).map Embed.to_dict ∧ l.length ≤ 10)
      ∧ (∀ l, d.components = some l →
        l = (components.take 5).map ActionRow.to_dict ∧ l.length ≤ 5))
    ∧ (∀ s args, (ActionRow.init (.comp (.sel s)) args).components
        = [.sel s])
    ∧ (∀ b args, (ActionRow.init (.comp (.btn b)) args).components
        = .btn b :: args.map NonActionRow.btn) := by
  refine ⟨?_, fun s args => rfl, fun b args => rfl⟩
  intro d h
  rw [message_data_simple_eq] at h
  injection h with h
  injection h with h
  subst h
  constructor
  · intro l hl
    by_cases he : ((embeds.take 10).map Embed.to_dict).isEmpty
    · rw [if_pos he] at hl
      cases hl
    · rw [if_neg he] at hl
      injection hl with hl
      subst hl
      refine ⟨rfl, ?_⟩
      rw [List.length_map, List.length_take]
      exact min_le_left _ _
  · intro l hl
    by_cases hc : ((components.take 5).map ActionRow.to_dict).isEmpty
    · rw [if_pos hc] at hl
      cases hl
    · rw [if_neg hc] at hl
      injection hl with hl
      subst hl
      refine ⟨rfl, ?_⟩
      rw [List.length_map, List.length_take]
      exact min_le_left _ _

/-- Eleven embeds, one more than the payload limit. -/
def embeds11 : List Embed := (List.range 11).map Embed.mk

/-- C8 witness: a response with 11 embeds serializes exactly the first 10
of them. -/
theorem C8_witness :
    (message_data "" none embeds11 [] none []
      = .ok (.json ⟨none, some (List.range 10), none, none, none⟩))
    ∧ List.range 10 = (embeds11.take 10).map Embed.to_dict
    ∧ (List.range 10).length ≤ 10 := by
  have h := ((C8_payload_truncation "" embeds11 []).1
    ⟨none, some (List.range 10), none, none, none⟩ (by rfl)).1
    (List.range 10) rfl
  exact ⟨by rfl, h.1, h.2⟩

/-! ### `context.py`: entity resolution (`BaseContext._try_get`)

`_try_get(default, get_method, fetch_method, typename, *, resolve_method,
resolved, fng, fq)` first enters a guarded try block (when `fq` is set,
when there is no `resolved` payload, or when the reference is not in the
relevant `resolved` section): a `None`-returning cache get with
`fetch_if_not_get` falls back to the fetch; without `fetch_if_not_get` a
`ValueError` is raised internally — note this throws away even a
*successful* cache get — and any `HTTPException`, `AttributeError` or
`ValueError` lands in the resolved-payload fallback, which returns the
resolved entity, or the bare `discord.Object` default when the reference
is absent there too. Calling a `None` `get_method`/`fetch_method` raises
an uncaught `TypeError`. Entities stored in a resolved section stand for
`resolve_method`'s output on the raw payload entry. -/

/-- A resolved argument value: the bare `discord.Object` placeholder (just
an ID) or a realized entity. `type(value) is discord.Object` tests for the
`object` constructor. -/
inductive Entity where
  | object (id : Nat)
  | member (id : Nat)
  | user (id : Nat)
  | channel (id : Nat)
  | role (id : Nat)
deriving DecidableEq, Repr

/-- `type(value) is discord.Object`. -/
def Entity.isBareObject : Entity → Bool
  | .object _ => true
  | _ => false

/-- Outcome of a synchronous cache lookup (`get_X`): an entity, `None`,
or an `AttributeError` (the guild is `None` or a bare `Object`, so the
method does not exist). -/
inductive GetOutcome where
  | gfound (e : Entity)
  | gnothing
  | graiseAttr
deriving DecidableEq, Repr

/-- Outcome of an asynchronous fetch (`fetch_X`): an entity, an
`HTTPException`, or an `AttributeError` from a missing guild. -/
inductive FetchOutcome where
  | ffound (e : Entity)
  | fraiseHttp
  | fraiseAttr
deriving DecidableEq, Repr

/-- Lookup in a `resolved` section keyed by stringified IDs. -/
def nlookup (m : List (Nat × Entity)) (k : Nat) : Option Entity :=
  match m with
  | [] => none
  | (k2, v) :: rest => if k2 == k then some v else nlookup rest k

/-- The fallback tail of `_try_get`: look the reference up in the
`resolved` section (returning the `resolve_method` construction) or
return the bare default object. -/
def try_get_resolved (defaultId : Nat)
    (resolvedSec : Option (List (Nat × Entity))) : Except PyErr Entity :=
  match resolvedSec with
  | none => .ok (.object defaultId)
  | some m =>
    match nlookup m defaultId with
    | none => .ok (.object defaultId)
    | some e => .ok e

/-- `str(default.id) in resolved[typename+'s']` for the skip condition of
`_try_get`'s try block. -/
def in_resolved (defaultId : Nat)
    (resolvedSec : Option (List (Nat × Entity))) : Bool :=
  match resolvedSec with
  | some m => (nlookup m defaultId).isSome
  | none => false

/-- The try block of `_try_get`: cache get, optional fetch fallback, the
internal `ValueError` that discards the result when `fetch_if_not_get` is
unset, and the caught-exception paths into the resolved fallback. Calling
a `None` method is an uncaught `TypeError`. -/
def try_get_attempt (defaultId : Nat) (get : Option (Nat → GetOutcome))
    (fetch : Option (Nat → FetchOutcome))
    (resolvedSec : Option (List (Nat × Entity))) (fng : Bool) :
    Except PyErr Entity :=
  match get with
  | none => .error .typeErr
  | some g =>
    match g defaultId with
    | .gfound e =>
      -- elif not fng: raise ValueError / else: return obj
      if fng then .ok e
      else try_get_resolved defaultId resolvedSec
    | .gnothing =>
      if fng then
        match fetch with
        | none => .error .typeErr
        | some f =>
          match f defaultId with
          | .ffound e => .ok e
          | .fraiseHttp => try_get_resolved defaultId resolvedSec
          | .fraiseAttr => try_get_resolved defaultId resolvedSec
      else try_get_resolved defaultId resolvedSec
    | .graiseAttr => try_get_resolved defaultId resolvedSec

/-- `BaseContext._try_get` from `context.py`. -/
def try_get (defaultId : Nat) (get : Option (Nat → GetOutcome))
    (fetch : Option (Nat → FetchOutcome))
    (resolvedSec : Option (List (Nat × Entity))) (fq fng : Bool) :
    Except PyErr Entity :=
  -- if fq or resolved is None or str(default.id) not in resolved[...]
  if fq || resolvedSec.isNone || !(in_resolved defaultId resolvedSec) then
    try_get_attempt defaultId get fetch resolvedSec fng
  else try_get_resolved defaultId resolvedSec

/-- The guild-held caches relevant to argument resolution, as the context
methods reach them (`guild.get_member`, `guild.fetch_member`,
`guild.get_role`). `none` stands for a missing (or bare-`Object`) guild,
whose attribute access raises `AttributeError`. -/
structure GuildData where
  members : List (Nat × Entity)
  fetchableMembers : List (Nat × Entity)
  roles : List (Nat × Entity)
deriving DecidableEq, Repr

/-- `Context._get_member` (`self.guild.get_member`). -/
def get_member_of (guild : Option GuildData) : Nat → GetOutcome :=
  match guild with
  | none => fun _ => .graiseAttr
  | some g => fun i =>
    match nlookup g.members i with
    | some e => .gfound e
    | none => .gnothing

/-- `Context._fetch_member` (`self.guild.fetch_member`, raising
`HTTPException` on an unknown member). -/
def fetch_member_of (guild : Option GuildData) : Nat → FetchOutcome :=
  match guild with
  | none => fun _ => .fraiseAttr
  | some g => fun i =>
    match nlookup g.fetchableMembers i with
    | some e => .ffound e
    | none => .fraiseHttp

/-- `self.guild.get_role` from `_try_get_role`. -/
def get_role_of (guild : Option GuildData) : Nat → GetOutcome :=
  match guild with
  | none => fun _ => .graiseAttr
  | some g => fun i =>
    match nlookup g.roles i with
    | some e => .gfound e
    | none => .gnothing

/-- The `resolved` sections of an interaction payload (entities stand for
the output of the corresponding `resolve_*` constructor). -/
structure ResolvedPayload where
  members : List (Nat × Entity)
  users : List (Nat × Entity)
  channels : List (Nat × Entity)
  roles : List (Nat × Entity)
deriving DecidableEq, Repr

/-- `Context._try_get_user` from `context.py`: member resolution first;
when the result is still a bare `Object` **and** `try_user` is set, retry
against the resolved `users` section (with `fq=False` and no
get/fetch methods). -/
def try_get_user (guild : Option GuildData) (resolved : ResolvedPayload)
    (tryUser : Bool) (valueId : Nat) (fq fng : Bool) :
    Except PyErr Entity :=
  match try_get valueId (some (get_member_of guild))
      (some (fetch_member_of guild)) (some resolved.members) fq fng with
  | .error e => .error e
  | .ok v =>
    if v.isBareObject && tryUser then
      try_get valueId none none (some resolved.users) false fng
    else .ok v

/-- `Context._try_get_role` from `context.py`: role cache then resolved
`roles`, with `fng=False` (never fetch). -/
def try_get_role (guild : Option GuildData) (resolved : ResolvedPayload)
    (valueId : Nat) (fq : Bool) : Except PyErr Entity :=
  try_get valueId (some (get_role_of guild)) none (some resolved.roles)
    fq false

/-- The MENTIONABLE branch of `Context._kwargs_from_options`:
member/user resolution with `try_user=False`, then — only if the result is
still a bare `discord.Object` — the same ID retried as a role. -/
def resolveMentionable (guild : Option GuildData)
    (resolved : ResolvedPayload) (valueId : Nat) (fq fng : Bool) :
    Except PyErr Entity :=
  match try_get_user guild resolved false valueId fq fng with
  | .error e => .error e
  | .ok v =>
    if v.isBareObject then try_get_role guild resolved valueId fq
    else .ok v


theorem try_get_resolved_ok (defaultId : Nat)
    (rs : Option (List (Nat × Entity))) :
    ∃ v, try_get_resolved defaultId rs = .ok v := by
  rcases rs with _ | m
  · exact ⟨_, rfl⟩
  · rcases hn : nlookup m defaultId with _ | e
    · exact ⟨.object defaultId, by simp [try_get_resolved, hn]⟩
    · exact ⟨e, by simp [try_get_resolved, hn]⟩

theorem try_get_attempt_no_raise (defaultId : Nat) (g : Nat → GetOutcome)
    (fetch : Option (Nat → FetchOutcome))
    (rs : Option (List (Nat × Entity))) (fng : Bool)
    (hf : fng = true → fetch.isSome) :
    ∃ v, try_get_attempt defaultId (some g) fetch rs fng = .ok v := by
  rw [try_get_attempt.eq_def]
  rcases hg : g defaultId with e | _ | _
  · cases fng
    · simpa [hg] using try_get_resolved_ok defaultId rs
    · exact ⟨e, by simp [hg]⟩
  · cases fng
    · simpa [hg] using try_get_resolved_ok defaultId rs
    · rcases hfe : fetch with _ | f
      · rw [hfe] at hf
        simp at hf
      · rcases hfo : f defaultId with e | _ | _
        · exact ⟨e, by simp [hg, hfe, hfo]⟩
        · simpa [hg, hfe, hfo] using try_get_resolved_ok defaultId rs
        · simpa [hg, hfe, hfo] using try_get_resolved_ok defaultId rs
  · simpa [hg] using try_get_resolved_ok defaultId rs

theorem try_get_no_raise (defaultId : Nat) (g : Nat → GetOutcome)
    (fetch : Option (Nat → FetchOutcome))
    (rs : Option (List (Nat × Entity))) (fq fng : Bool)
    (hf : fng = true → fetch.isSome) :
    ∃ v, try_get defaultId (some g) fetch rs fq fng = .ok v := by
  rw [try_get]
  split
  · exact try_get_attempt_no_raise defaultId g fetch rs fng hf
  · exact try_get_resolved_ok defaultId rs

theorem try_get_resolved_miss (defaultId : Nat)
    (rs : Option (List (Nat × Entity)))
    (hrs : ∀ m, rs = some m → nlookup m defaultId = none) :
    try_get_resolved defaultId rs = .ok (.object defaultId) := by
  rcases hrs2 : rs with _ | m
  · rfl
  · simp [try_get_resolved, hrs m hrs2]

theorem try_get_fallback (defaultId : Nat) (g : Nat → GetOutcome)
    (fetch : Option (Nat → FetchOutcome))
    (rs : Option (List (Nat × Entity))) (fq fng : Bool)
    (hg : ∀ e, g defaultId ≠ .gfound e)
    (hfetch : ∀ f, fetch = some f → ∀ e, f defaultId ≠ .ffound e)
    (hf : fng = true → fetch.isSome)
    (hrs : ∀ m, rs = some m → nlookup m defaultId = none) :
    try_get defaultId (some g) fetch rs fq fng
      = .ok (.object defaultId) := by
  have hres := try_get_resolved_miss defaultId rs hrs
  rw [try_get]
  split
  · rw [try_get_attempt.eq_def]
    rcases hgo : g defaultId with e | _ | _
    · exact absurd hgo (hg e)
    · cases fng
      · simpa [hgo] using hres
      · rcases hfe : fetch with _ | f
        · rw [hfe] at hf
          simp at hf
        · rcases hfo : f defaultId with e | _ | _
          · exact absurd hfo (hfetch f hfe e)
          · simpa [hgo, hfe, hfo] using hres
          · simpa [hgo, hfe, hfo] using hres
    · simpa [hgo] using hres
  · exact hres

/-! ### Claim C9: MENTIONABLE resolution order and placeholder fallback -/

/-- C9: for a MENTIONABLE option value, resolution attempts member/user
resolution first and retries the same ID as a role exactly when the first
attempt still yields a bare ID-only `discord.Object`; no exception escapes
on any resolution path (both stages always return a value); and when the
raw ID matches neither a resolvable member/user (guild caches, member
fetch, resolved members) nor a resolvable role (guild role cache, resolved
roles), the resolved value is the bare placeholder carrying only that
numeric ID. -/
theorem C9_mentionable_resolution (guild : Option GuildData)
    (resolved : ResolvedPayload) (valueId : Nat) (fq fng : Bool) :
    (∃ v, resolveMentionable guild resolved valueId fq fng = .ok v)
    ∧ (∀ v, try_get_user guild resolved false valueId fq fng = .ok v →
      (v.isBareObject = false →
        resolveMentionable guild resolved valueId fq fng = .ok v)
      ∧ (v.isBareObject = true →
        resolveMentionable guild resolved valueId fq fng
          = try_get_role guild resolved valueId fq))
    ∧ ((∀ gd, guild = some gd →
          nlookup gd.members valueId = none
          ∧ nlookup gd.fetchableMembers valueId = none
          ∧ nlookup gd.roles valueId = none) →
        nlookup resolved.members valueId = none →
        nlookup resolved.roles valueId = none →
        resolveMentionable guild resolved valueId fq fng
          = .ok (.object valueId)) := by
  have huser_eq : try_get_user guild resolved false valueId fq fng
      = try_get valueId (some (get_member_of guild))
          (some (fetch_member_of guild)) (some resolved.members) fq fng := by
    rw [try_get_user]
    obtain ⟨v, hv⟩ := try_get_no_raise valueId (get_member_of guild)
      (some (fetch_member_of guild)) (some resolved.members) fq fng
      (fun _ => rfl)
    rw [hv]
    simp
  refine ⟨?_, ?_, ?_⟩
  · rw [resolveMentionable, huser_eq]
    obtain ⟨v, hv⟩ := try_get_no_raise valueId (get_member_of guild)
      (some (fetch_member_of guild)) (some resolved.members) fq fng
      (fun _ => rfl)
    rw [hv]
    rcases hb : v.isBareObject with _ | _
    · exact ⟨v, by simp [hb]⟩
    · obtain ⟨w, hw⟩ := try_get_no_raise valueId (get_role_of guild)
        none (some resolved.roles) fq false
        (fun h => Bool.noConfusion h)
      refine ⟨w, ?_⟩
      simp only [hb, if_pos]
      rw [try_get_role]
      exact hw
  · intro v hv
    constructor
    · intro hb
      rw [resolveMentionable, hv]
      simp [hb]
    · intro hb
      rw [resolveMentionable, hv]
      simp [hb]
  · intro hguild hrm hrr
    have huser : try_get_user guild resolved false valueId fq fng
        = .ok (.object valueId) := by
      rw [huser_eq]
      refine try_get_fallback valueId _ _ _ fq fng ?_ ?_ (fun _ => rfl) ?_
      · intro e he
        rcases hgd : guild with _ | gd
        · rw [hgd] at he
          cases he
        · rw [hgd] at he
          simp [get_member_of, (hguild gd hgd).1] at he
      · intro f hfe e he
        injection hfe with hfe
        subst hfe
        rcases hgd : guild with _ | gd
        · rw [hgd] at he
          cases he
        · rw [hgd] at he
          simp [fetch_member_of, (hguild gd hgd).2.1] at he
      · intro m hm
        injection hm with hm
        subst hm
        exact hrm
    rw [resolveMentionable, huser]
    simp only [Entity.isBareObject, if_pos]
    rw [try_get_role]
    refine try_get_fallback valueId _ _ _ fq false ?_ ?_
      (fun h => Bool.noConfusion h) ?_
    · intro e he
      rcases hgd : guild with _ | gd
      · rw [hgd] at he
        cases he
      · rw [hgd] at he
        simp [get_role_of, (hguild gd hgd).2.2] at he
    · intro f hfe
      cases hfe
    · intro m hm
      injection hm with hm
      subst hm
      exact hrr

/-- C9 witness (resolution Scenario C): no guild in reach and an empty
resolved payload — a MENTIONABLE reference to ID 42 resolves, without
raising, to the bare placeholder object with ID 42. -/
theorem C9_witness :
    ((∀ gd, (none : Option GuildData) = some gd →
        nlookup gd.members 42 = none
        ∧ nlookup gd.fetchableMembers 42 = none
        ∧ nlookup gd.roles 42 = none)
      ∧ nlookup (⟨[], [], [], []⟩ : ResolvedPayload).members 42 = none
      ∧ nlookup (⟨[], [], [], []⟩ : ResolvedPayload).roles 42 = none)
    ∧ resolveMentionable none ⟨[], [], [], []⟩ 42 false false
      = .ok (.object 42) := by
  refine ⟨⟨fun gd h => Option.noConfusion h, rfl, rfl⟩, ?_⟩
  exact (C9_mentionable_resolution none ⟨[], [], [], []⟩ 42 false false).2.2
    (fun gd h => Option.noConfusion h) rfl rfl

end ExtSlash
